import Mathlib

/-!
Verification development for the pts delivery-tracking backend.

The Python modules under `app/utils/calculations.py`, `app/services/project_service.py`
and the entity models under `app/models/` are shallowly embedded below.
Python floats are modelled as rationals with exact arithmetic; Python's
`round`, `int` and `math.floor` are modelled explicitly; fallible Python code
(code that can raise) is modelled with `Option`/`Except`.
-/

namespace PTS

/-- Python built-in round of a rational to an integer: nearest, ties to even. -/
def roundHalfEven (q : ℚ) : ℤ :=
  let f := ⌊q⌋
  let r := q - f
  if r < 1/2 then f
  else if 1/2 < r then f + 1
  else if f % 2 = 0 then f else f + 1

/-- Python `round(x, n)`: round to `n` decimal places, ties to even. -/
def pyRound (q : ℚ) (n : ℕ) : ℚ := (roundHalfEven (q * 10 ^ n) : ℚ) / 10 ^ n

/-- Python `int(x)` on a float: truncation toward zero. -/
def pyTrunc (q : ℚ) : ℤ := if 0 ≤ q then ⌊q⌋ else ⌈q⌉

/-- Task status enumeration (src/app/models/task.py, `class TaskStatus`). -/
inductive TaskStatus
  | OPEN
  | TODO
  | INVESTIGATION
  | INPROGRESS
  | INREVIEW
  | WAITING
  | STANDBY
  | DONE
  | CANCELLED
  | POSTPONED
  deriving DecidableEq, Repr

/-- Task readiness-for-test enumeration (src/app/models/task.py, `class TASKRFT`). -/
inductive TASKRFT
  | DEFAULT
  | OK
  | KO
  deriving DecidableEq, Repr

/-- Sprint status enumeration (src/app/models/sprint.py, `class SprintStatus`). -/
inductive SprintStatus
  | TODO
  | INPROGRESS
  | DONE
  | CLOSED
  deriving DecidableEq, Repr

/-- Project status enumeration (src/app/models/project.py, `class ProjectStatus`). -/
inductive ProjectStatus
  | BID
  | INPROGRESS
  | DONE
  | CANCELLED
  | CLOSED
  deriving DecidableEq, Repr

/--
Embedding of the `Task` document (src/app/models/task.py, `class Task`), restricted
to the fields read or written by the calculation and service code under verification.
Object ids are embedded as naturals; `Optional[float]` fields as `Option ℚ`.
The attribute `deliverySprint` is carried as the string the calculation code and
the task service read and write (`task.deliverySprint`).
-/
structure Task where
  id : Nat
  sprintId : Nat
  projectId : Nat
  key : String
  summary : String
  storyPoints : ℚ
  deliverySprint : String
  status : TaskStatus
  rft : TASKRFT
  technicalLoad : Option ℚ
  timeSpent : Option ℚ
  timeRemaining : Option ℚ
  progress : Option ℚ
  delta : Option ℚ
  is_deleted : Bool
  is_cascade_deleted : Bool
  deriving DecidableEq, Repr

/-- Embedding of `SprintTransversalActivity` (src/app/models/sprint.py). -/
structure SprintTransversalActivity where
  id : Nat
  sprintId : Nat
  activity : String
  meaning : String
  time_spent : ℚ
  is_deleted : Bool
  deriving DecidableEq, Repr

/--
Embedding of the `Sprint` document (src/app/models/sprint.py, `class Sprint`),
restricted to the fields the calculation code reads.  `startDate`/`dueDate` are
embedded at day granularity as proleptic Gregorian ordinals (Python's
`date.toordinal`), which is all `calculate_weekdays` observes of them.
-/
structure Sprint where
  id : Nat
  projectId : Nat
  sprintName : String
  status : SprintStatus
  startDate : Nat
  dueDate : Nat
  capacity : ℚ
  is_deleted : Bool
  deriving DecidableEq, Repr

/-- Python `date.weekday()` on the date with the given proleptic Gregorian
ordinal: ordinal 1 is a Monday (weekday 0). -/
def pyWeekday (o : Nat) : Nat := (o - 1) % 7

/-- `calculate_weekdays` (src/app/utils/calculations.py): number of weekdays
(Mon-Fri) from the earlier date (inclusive) up to the later date (exclusive),
swapping the pair when `start > due`. -/
def calculate_weekdays (start_date due_date : Nat) : Nat :=
  let s := min start_date due_date
  let d := max start_date due_date
  ((List.range (d - s)).filter (fun i => pyWeekday (s + i) < 5)).length

/-- `calculate_story_points` (src/app/utils/calculations.py): sum of
`storyPoints` over all tasks of the list, with no status filter. -/
def calculate_story_points (tasks : List Task) : ℚ :=
  tasks.foldl (fun acc t => acc + t.storyPoints) 0

/-- `calculate_progress` (src/app/utils/calculations.py): 100 on an empty list;
otherwise the accumulated `storyPoints * progress` over non-CANCELLED tasks
divided by `max 1` of their accumulated story points. -/
def calculate_progress (tasks : List Task) : ℚ :=
  if tasks.isEmpty then 100
  else
    let p := tasks.foldl
      (fun acc t =>
        if t.status ≠ TaskStatus.CANCELLED then
          (acc.1 + t.storyPoints, acc.2 + t.storyPoints * t.progress.getD 0)
        else acc)
      ((0 : ℚ), (0 : ℚ))
    p.2 / max 1 p.1

/-- `is_delivery_sprint_current` (src/app/utils/calculations.py). -/
def is_delivery_sprint_current (task : Task) (sprint_name : String) : Bool :=
  task.deliverySprint = sprint_name

/-- `calculate_velocity` (src/app/utils/calculations.py): sum of `storyPoints`
over tasks whose status is DONE and whose delivery sprint is the current one. -/
def calculate_velocity (tasks : List Task) (sprint_name : String) : ℚ :=
  tasks.foldl
    (fun acc t =>
      if t.status = TaskStatus.DONE ∧ is_delivery_sprint_current t sprint_name then
        acc + t.storyPoints
      else acc)
    0

/-- `calculate_total_time` (src/app/utils/calculations.py): sum of `timeSpent`.
The Python loop adds `task.timeSpent` with no `None` guard, so a task whose
`timeSpent` is `None` raises `TypeError`; this is modelled by `none`. -/
def calculate_total_time (tasks : List Task) : Option ℚ :=
  tasks.foldl
    (fun acc t => do
      let a ← acc
      let ts ← t.timeSpent
      pure (a + ts))
    (some 0)

/-- `calculate_transversal_time` (src/app/utils/calculations.py). -/
def calculate_transversal_time (activities : List SprintTransversalActivity) : ℚ :=
  activities.foldl (fun acc a => acc + a.time_spent) 0

/-- `calculate_otd` (src/app/utils/calculations.py): `100*velocity/in_scope`
when the sprint status is DONE and `in_scope` is truthy (non-zero), else 0. -/
def calculate_otd (status : SprintStatus) (velocity in_scope : ℚ) : ℚ :=
  if status = SprintStatus.DONE ∧ in_scope ≠ 0 then 100 * velocity / in_scope else 0

/-- `calculate_oqd` (src/app/utils/calculations.py): among tasks that are DONE
and delivered in the current sprint, the percentage with `rft = OK`; 0 when the
task list is empty, the sprint is not DONE, or no task was delivered. -/
def calculate_oqd (sprint_name : String) (status : SprintStatus) (tasks : List Task) : ℚ :=
  if tasks.isEmpty then 0
  else if status ≠ SprintStatus.DONE then 0
  else
    let c := tasks.foldl
      (fun acc t =>
        if t.status = TaskStatus.DONE ∧ is_delivery_sprint_current t sprint_name then
          (acc.1 + (if t.rft = TASKRFT.OK then 1 else 0), acc.2 + 1)
        else acc)
      ((0 : ℚ), (0 : ℚ))
    if c.2 = 0 then 0 else 100 * c.1 / c.2

/--
Result dictionary of `calculate_sprint_metrics`.  In the empty-task branch the
Python dictionary carries no `technical_time_spent`/`transversal_time_spent`
keys, which is modelled by `none` in those two fields.
-/
structure SprintMetrics where
  «scoped» : ℚ
  velocity : ℚ
  progress : ℚ
  technical_time_spent : Option ℚ
  transversal_time_spent : Option ℚ
  time_spent : ℚ
  duration : ℕ
  otd : ℚ
  oqd : ℚ
  deriving DecidableEq, Repr

/--
`calculate_sprint_metrics` (src/app/utils/calculations.py).  With no tasks it
returns the fixed dictionary with `progress = 0`; otherwise it assembles the
helper results, flooring `velocity`, `progress`, `otd`, `oqd` and rounding
`scoped` to 1 and the time totals to 2 decimals.  `none` models the
`TypeError` raised by `calculate_total_time` on a task with `timeSpent = None`.
-/
def calculate_sprint_metrics (sprint : Sprint) (trans_acts : List SprintTransversalActivity)
    (tasks : List Task) : Option SprintMetrics :=
  let duration := calculate_weekdays sprint.startDate sprint.dueDate
  if tasks.isEmpty then
    some { «scoped» := 0, velocity := 0, progress := 0,
           technical_time_spent := none, transversal_time_spent := none,
           time_spent := 0, duration := duration, otd := 0, oqd := 0 }
  else
    match calculate_total_time tasks with
    | none => none
    | some total_time_spent =>
      let total_transversal_time := calculate_transversal_time trans_acts
      let total_story_points := calculate_story_points tasks
      let overall_progress := calculate_progress tasks
      let velocity := calculate_velocity tasks sprint.sprintName
      let oqd := calculate_oqd sprint.sprintName sprint.status tasks
      let overall_time_spent := total_time_spent + total_transversal_time
      let otd := calculate_otd sprint.status velocity total_story_points
      some { «scoped» := pyRound total_story_points 1
           , velocity := (⌊velocity⌋ : ℚ)
           , progress := (⌊overall_progress⌋ : ℚ)
           , technical_time_spent := some (pyRound total_time_spent 2)
           , transversal_time_spent := some (pyRound total_transversal_time 2)
           , time_spent := pyRound overall_time_spent 2
           , duration := duration
           , otd := (⌊otd⌋ : ℚ)
           , oqd := (⌊oqd⌋ : ℚ) }

/-- Result dictionary of `calculate_task_metrics`. -/
structure TaskMetrics where
  technical_load : ℚ
  delta : ℚ
  progress : ℤ
  deriving DecidableEq, Repr

/--
`calculate_task_metrics` (src/app/utils/calculations.py).  The Python body
first computes the progress percentage (raising `TypeError` when
`timeSpent is None` while `timeSpent or 0 + timeRemaining or 0 ≠ 0`), then
divides `storyPoints` by the ratio (raising `ZeroDivisionError` when the ratio
is 0); both failure modes are modelled by `none`.  There is no guard on a
non-positive ratio.
-/
def calculate_task_metrics (task : Task) (trans_tech_ratio : ℚ) : Option TaskMetrics :=
  let updated_time := task.timeSpent.getD 0 + task.timeRemaining.getD 0
  let progOpt : Option ℚ :=
    if updated_time = 0 then some 0
    else match task.timeSpent with
      | none => none
      | some ts => some (ts / updated_time * 100)
  match progOpt with
  | none => none
  | some progress_percentage =>
    if trans_tech_ratio = 0 then none
    else
      let technical_load := task.storyPoints / trans_tech_ratio
      let delta := technical_load - updated_time
      some { technical_load := pyRound technical_load 2
           , delta := pyRound delta 2
           , progress := pyTrunc progress_percentage }

/--
Embedding of the `Project` document (src/app/models/project.py, `class Project`),
restricted to the fields the project service reads or writes.
-/
structure Project where
  id : Nat
  projectName : String
  status : ProjectStatus
  centerId : Option Nat
  is_deleted : Bool
  transversal_vs_technical_workload_ratio : ℚ
  task_statuses : List String
  task_types : List String
  deriving DecidableEq, Repr

/--
Embedding of the `ProjectUpdate` payload (src/app/schemas/project.py) as seen
through `model_dump(exclude_unset=True)`: a field that was not supplied is
`none` and is then absent from `update_data`.  `id` and `transversalActivities`
are in `bad_fields` and never reach `setattr`, so they are not carried here.
-/
structure ProjectUpdate where
  id : Nat
  centerId : Option Nat := none
  projectName : Option String := none
  status : Option ProjectStatus := none
  technicalLoadRatio : Option ℚ := none
  taskStatuses : Option (List String) := none
  taskTypes : Option (List String) := none
  deriving DecidableEq, Repr

/-- The `setattr` loop of `ProjectService.update_project`
(src/app/services/project_service.py), applied through `_field_mapping`:
each field present in `update_data` overwrites the stored one. -/
def apply_update (p : Project) (u : ProjectUpdate) : Project :=
  { p with
    centerId := match u.centerId with | some c => some c | none => p.centerId
    projectName := u.projectName.getD p.projectName
    status := u.status.getD p.status
    transversal_vs_technical_workload_ratio :=
      u.technicalLoadRatio.getD p.transversal_vs_technical_workload_ratio
    task_statuses := u.taskStatuses.getD p.task_statuses
    task_types := u.taskTypes.getD p.task_types }

/-- The per-task body of `ProjectService._recalculate_project_tasks`
(src/app/services/project_service.py): stores the freshly computed metrics on
the task, and when `timeRemaining` equalled the previous `technicalLoad`
(Python `==`, so also `None == None`), resets it to the new `technicalLoad`. -/
def recalc_task (t : Task) (m : TaskMetrics) : Task :=
  let old_technical_load := t.technicalLoad
  let t1 := { t with
    technicalLoad := some m.technical_load
    delta := some m.delta
    progress := some (m.progress : ℚ) }
  if t1.timeRemaining = old_technical_load then { t1 with timeRemaining := t1.technicalLoad }
  else t1

/--
The task loop of `ProjectService._recalculate_project_tasks`: tasks are
processed sequentially; a metrics failure or a failed `engine.save` raises,
which aborts the loop (the `except` branch then returns `False`).  The result
is the list of tasks actually saved, paired with the returned boolean; the
abstract store's per-save outcome is the `saveOk` oracle.
-/
def recalc_loop (ratio : ℚ) (saveOk : Task → Bool) : List Task → List Task × Bool
  | [] => ([], true)
  | t :: ts =>
    match calculate_task_metrics t ratio with
    | none => ([], false)
    | some m =>
      let saved := recalc_task t m
      if saveOk saved then
        let r := recalc_loop ratio saveOk ts
        (saved :: r.1, r.2)
      else ([], false)

/-- `ProjectService._recalculate_project_tasks`: `False` with no writes when
the project is absent; otherwise the loop above over the project's non-deleted
tasks with the stored ratio.  Every exception inside is caught and turned into
`False`: the function itself never raises. -/
def recalculate_project_tasks (project : Option Project) (tasks : List Task)
    (saveOk : Task → Bool) : List Task × Bool :=
  match project with
  | none => ([], false)
  | some p => recalc_loop p.transversal_vs_technical_workload_ratio saveOk tasks

/-- Observable outcome of `ProjectService.update_project`: the saved project,
the tasks written back by the recalculation pass in order, whether the pass was
triggered, and the boolean the (ignored) pass returned. -/
structure UpdateOutcome where
  project : Project
  savedTasks : List Task
  recalcTriggered : Bool
  recalcOk : Bool
  deriving DecidableEq, Repr

/--
`ProjectService.update_project` (src/app/services/project_service.py), for a
stored project `p` whose non-deleted tasks are `tasks`.  The recalculation pass
runs only when `technicalLoadRatio` was supplied and the resulting stored ratio
differs from the old one; its boolean result is discarded by the source.  The
`Except` layer reflects the `try`/`except` around `engine.save(project)`
(mapped to HTTP 400); the store itself is assumed reliable per call, and the
recalculation pass never raises, so no input produces `Except.error`.
-/
def update_project (p : Project) (tasks : List Task) (u : ProjectUpdate)
    (saveOk : Task → Bool) : Except String UpdateOutcome :=
  let old_ratio := p.transversal_vs_technical_workload_ratio
  let p1 := apply_update p u
  if u.technicalLoadRatio.isSome ∧ p1.transversal_vs_technical_workload_ratio ≠ old_ratio then
    let r := recalculate_project_tasks (some p1) tasks saveOk
    Except.ok { project := p1, savedTasks := r.1, recalcTriggered := true, recalcOk := r.2 }
  else
    Except.ok { project := p1, savedTasks := [], recalcTriggered := false, recalcOk := true }

namespace Cascade

/--
Modelled from the spec: `CascadeDeletionService` itself is not part of the
source tree (only its unit tests and its callers in the HTTP endpoints are),
so the engine is modelled from spec section 4.1 over the spec's data model
(section 3), in which every cascade-managed entity carries both `is_deleted`
and `is_cascade_deleted`.  A task as the cascade engine sees it.
-/
structure CDTask where
  id : Nat
  sprintId : Nat
  is_deleted : Bool
  is_cascade_deleted : Bool
  deriving DecidableEq, Repr

/-- Modelled from the spec: a sprint-level transversal activity as the cascade
engine sees it. -/
structure CDSprintActivity where
  id : Nat
  sprintId : Nat
  is_deleted : Bool
  is_cascade_deleted : Bool
  deriving DecidableEq, Repr

/-- Modelled from the spec: a project-level transversal activity as the
cascade engine sees it. -/
structure CDProjectActivity where
  id : Nat
  projectId : Nat
  is_deleted : Bool
  is_cascade_deleted : Bool
  deriving DecidableEq, Repr

/-- Modelled from the spec: a sprint as the cascade engine sees it. -/
structure CDSprint where
  id : Nat
  projectId : Nat
  is_deleted : Bool
  is_cascade_deleted : Bool
  deriving DecidableEq, Repr

/-- Modelled from the spec: a project as the cascade engine sees it. -/
structure CDProject where
  id : Nat
  centerId : Nat
  is_deleted : Bool
  is_cascade_deleted : Bool
  deriving DecidableEq, Repr

/-- Modelled from the spec: the document store (section 6 contract) as the
collections the cascade engine touches. -/
structure Store where
  projects : List CDProject
  sprints : List CDSprint
  tasks : List CDTask
  sprintActivities : List CDSprintActivity
  projectActivities : List CDProjectActivity
  deriving DecidableEq, Repr

/-- `engine.save` on a collection: the document with the saved entity's id is
replaced by the saved entity, everything else is untouched. -/
def saveBy (idOf : α → Nat) (xs : List α) (x : α) : List α :=
  xs.map (fun y => if idOf y = idOf x then x else y)

/-- `engine.find_one` excluding already-deleted documents. -/
def findLive (idOf : α → Nat) (delOf : α → Bool) (xs : List α) (i : Nat) : Option α :=
  xs.find? (fun x => decide (idOf x = i ∧ delOf x = false))

/--
Modelled from the spec: the body shared by the per-entity delete operations of
spec section 4.1 (they are declared symmetric there).  Loads the document with
the given id excluding already-deleted ones; absent means `false`; otherwise
persists the marked document (`mark`) and returns `true`.  A persistence
failure would be caught and become `false`; the store is modelled as reliable
per call.
-/
def softDelete (idOf : α → Nat) (delOf : α → Bool) (mark : α → α) (xs : List α)
    (i : Nat) : List α × Bool :=
  match findLive idOf delOf xs i with
  | none => (xs, false)
  | some x => (saveBy idOf xs (mark x), true)

/-- The soft-delete marking of a task: `is_deleted := true`,
`is_cascade_deleted := isCascade`. -/
def markTask (is_cascade : Bool) (t : CDTask) : CDTask :=
  { t with is_deleted := true, is_cascade_deleted := is_cascade }

/-- The soft-delete marking of a sprint-level transversal activity. -/
def markSprintActivity (is_cascade : Bool) (a : CDSprintActivity) : CDSprintActivity :=
  { a with is_deleted := true, is_cascade_deleted := is_cascade }

/-- The soft-delete marking of a project-level transversal activity. -/
def markProjectActivity (is_cascade : Bool) (a : CDProjectActivity) : CDProjectActivity :=
  { a with is_deleted := true, is_cascade_deleted := is_cascade }

/-- The soft-delete marking of a sprint. -/
def markSprint (is_cascade : Bool) (s : CDSprint) : CDSprint :=
  { s with is_deleted := true, is_cascade_deleted := is_cascade }

/-- The soft-delete marking of a project. -/
def markProject (is_cascade : Bool) (p : CDProject) : CDProject :=
  { p with is_deleted := true, is_cascade_deleted := is_cascade }

/-- Modelled from the spec: `deleteTask(id, isCascade)` (spec section 4.1):
sets `is_deleted := true` and `is_cascade_deleted := isCascade`. -/
def delete_task (st : Store) (i : Nat) (is_cascade : Bool) : Store × Bool :=
  let r := softDelete CDTask.id CDTask.is_deleted (markTask is_cascade) st.tasks i
  ({ st with tasks := r.1 }, r.2)

/-- Modelled from the spec: deletion of one sprint-level transversal activity,
symmetric to `delete_task` (spec sections 4.1 and 8: cascade victims get
`is_deleted = true, is_cascade_deleted = true`). -/
def delete_sprint_activity (st : Store) (i : Nat) (is_cascade : Bool) : Store × Bool :=
  let r := softDelete CDSprintActivity.id CDSprintActivity.is_deleted
    (markSprintActivity is_cascade) st.sprintActivities i
  ({ st with sprintActivities := r.1 }, r.2)

/-- Modelled from the spec: deletion of one project-level transversal
activity, symmetric to `delete_task`. -/
def delete_project_activity (st : Store) (i : Nat) (is_cascade : Bool) : Store × Bool :=
  let r := softDelete CDProjectActivity.id CDProjectActivity.is_deleted
    (markProjectActivity is_cascade) st.projectActivities i
  ({ st with projectActivities := r.1 }, r.2)

/-- Sequential soft deletion of the documents with the given ids. -/
def softDeleteFold (idOf : α → Nat) (delOf : α → Bool) (mark : α → α) (ids : List Nat)
    (xs : List α) : List α :=
  ids.foldl (fun acc j => (softDelete idOf delOf mark acc j).1) xs

/--
Modelled from the spec: `deleteSprintWithCascade(id, isCascade)` (spec section
4.1).  Loads the sprint (excluding deleted); absent means `false`.  It then
sequentially deletes every non-deleted task under it and every non-deleted
sprint activity under it with `isCascade = true`, regardless of individual
outcomes, and finally marks the sprint itself with
`is_cascade_deleted := isCascade` and returns `true`.
-/
def delete_sprint_with_cascade (st : Store) (i : Nat) (is_cascade : Bool) : Store × Bool :=
  match findLive CDSprint.id CDSprint.is_deleted st.sprints i with
  | none => (st, false)
  | some s =>
    let taskIds := (st.tasks.filter
      (fun t => decide (t.sprintId = s.id ∧ t.is_deleted = false))).map CDTask.id
    let st1 := taskIds.foldl (fun acc tid => (delete_task acc tid true).1) st
    let actIds := (st1.sprintActivities.filter
      (fun a => decide (a.sprintId = s.id ∧ a.is_deleted = false))).map CDSprintActivity.id
    let st2 := actIds.foldl (fun acc aid => (delete_sprint_activity acc aid true).1) st1
    ({ st2 with sprints := saveBy CDSprint.id st2.sprints (markSprint is_cascade s) }, true)

/-- Sequential cascade deletion of the sprints with the given ids (the loop
body of `deleteProjectWithCascade`). -/
def sprintCascadeFold (ids : List Nat) (st : Store) : Store :=
  ids.foldl (fun acc sid => (delete_sprint_with_cascade acc sid true).1) st

/--
Modelled from the spec: `deleteProjectWithCascade(id, isCascade)` (spec section
4.1).  Loads the project (excluding deleted); absent means `false`.  Cascades
into every non-deleted sprint of the project with `isCascade = true`, then
into every non-deleted project-level transversal activity, then marks the
project itself with `is_cascade_deleted := isCascade` and returns `true`.
-/
def delete_project_with_cascade (st : Store) (i : Nat) (is_cascade : Bool) : Store × Bool :=
  match findLive CDProject.id CDProject.is_deleted st.projects i with
  | none => (st, false)
  | some p =>
    let sprintIds := (st.sprints.filter
      (fun s => decide (s.projectId = p.id ∧ s.is_deleted = false))).map CDSprint.id
    let st1 := sprintCascadeFold sprintIds st
    let actIds := (st1.projectActivities.filter
      (fun a => decide (a.projectId = p.id ∧ a.is_deleted = false))).map CDProjectActivity.id
    let st2 := actIds.foldl (fun acc aid => (delete_project_activity acc aid true).1) st1
    ({ st2 with projects := saveBy CDProject.id st2.projects (markProject is_cascade p) }, true)

/-- The flag invariant of spec section 3, stated over every record of the
store: `is_cascade_deleted = true` implies `is_deleted = true`. -/
def storeConsistent (st : Store) : Prop :=
  (∀ t ∈ st.tasks, t.is_cascade_deleted = true → t.is_deleted = true) ∧
  (∀ a ∈ st.sprintActivities, a.is_cascade_deleted = true → a.is_deleted = true) ∧
  (∀ a ∈ st.projectActivities, a.is_cascade_deleted = true → a.is_deleted = true) ∧
  (∀ s ∈ st.sprints, s.is_cascade_deleted = true → s.is_deleted = true) ∧
  (∀ p ∈ st.projects, p.is_cascade_deleted = true → p.is_deleted = true)

/-- A store with one live project (id 1) with one live sprint (id 2) carrying
one live task (id 3) and one live activity (id 4), plus one live
project-level activity (id 5). -/
def storeLive : Store :=
  { projects := [{ id := 1, centerId := 9, is_deleted := false, is_cascade_deleted := false }]
  , sprints := [{ id := 2, projectId := 1, is_deleted := false, is_cascade_deleted := false }]
  , tasks := [{ id := 3, sprintId := 2, is_deleted := false, is_cascade_deleted := false }]
  , sprintActivities :=
      [{ id := 4, sprintId := 2, is_deleted := false, is_cascade_deleted := false }]
  , projectActivities :=
      [{ id := 5, projectId := 1, is_deleted := false, is_cascade_deleted := false }] }

/-- A store whose single sprint is already soft-deleted while a live task
still sits under it (the partial-failure state of spec section 8: a child
write failed during an earlier sprint cascade, the sprint was still marked). -/
def storeDeadSprint : Store :=
  { projects := [{ id := 1, centerId := 9, is_deleted := false, is_cascade_deleted := false }]
  , sprints := [{ id := 2, projectId := 1, is_deleted := true, is_cascade_deleted := false }]
  , tasks := [{ id := 3, sprintId := 2, is_deleted := false, is_cascade_deleted := false }]
  , sprintActivities := []
  , projectActivities := [] }

/-- `storeLive` after its only task has already been soft-deleted. -/
def storeTaskDeleted : Store :=
  { storeLive with
    tasks := [{ id := 3, sprintId := 2, is_deleted := true, is_cascade_deleted := false }] }

end Cascade

/-- Field names declared on the `Task` odmantic model
(src/app/models/task.py, `class Task`). -/
def taskModelFields : List String :=
  ["sprintId", "projectId", "key", "summary", "storyPoints", "wu", "comment",
   "deliveryStatus", "deliveryVersion", "type", "status", "rft", "technicalLoad",
   "timeSpent", "timeRemaining", "progress", "assignee", "delta", "ticketLink",
   "description", "created_at", "is_deleted", "is_cascade_deleted"]

/-- Field names declared on the `Sprint` odmantic model
(src/app/models/sprint.py, `class Sprint`). -/
def sprintModelFields : List String :=
  ["projectId", "sprintName", "status", "startDate", "dueDate", "capacity",
   "sprint_transversal_activities", "task", "created_at", "is_deleted",
   "task_statuses", "task_types"]

/-- Field names declared on the `SprintTransversalActivity` odmantic model
(src/app/models/sprint.py). -/
def sprintTransversalActivityModelFields : List String :=
  ["sprintId", "activity", "meaning", "time_spent", "created_at", "is_deleted"]

/-- Field names declared on the `Project` odmantic model
(src/app/models/project.py, `class Project`). -/
def projectModelFields : List String :=
  ["projectName", "status", "roles", "sprints", "centerId", "users", "created_at",
   "is_deleted", "transversal_vs_technical_workload_ratio",
   "project_transversal_activities", "possible_task_statuses", "possible_task_types",
   "task_types", "task_statuses"]

/-- Field names declared on the `ProjectTransversalActivity` odmantic model
(src/app/models/project.py). -/
def projectTransversalActivityModelFields : List String :=
  ["project_id", "activity", "meaning", "default", "created_at", "is_deleted"]

/-- Field names declared on the `ServiceCenter` odmantic model
(src/app/models/service_center.py, `class ServiceCenter`). -/
def serviceCenterModelFields : List String :=
  ["centerName", "location", "contactEmail", "contactPhone", "status", "projects",
   "users", "created_at", "is_deleted", "is_cascade_deleted",
   "transversal_activities", "possible_task_statuses", "possible_task_types"]

/-- Field names declared on the `User` odmantic model
(src/app/models/user.py, `class User`). -/
def userModelFields : List String :=
  ["first_name", "family_name", "email", "type", "registration_number", "trigram",
   "director_access_list", "project_access_list", "created_at", "is_deleted"]

/-! Spec-side comparator definitions, written from the specification's words,
to be compared with the source-translated functions above. -/

/-- Spec wording for `velocity`: sum of `story_points` over tasks whose status
is DONE and whose delivery sprint name equals the current sprint's name. -/
def spec_velocity (tasks : List Task) (sprint_name : String) : ℚ :=
  ((tasks.filter (fun t =>
    decide (t.status = TaskStatus.DONE ∧ t.deliverySprint = sprint_name))).map
      Task.storyPoints).sum

/-- Spec wording for `scoped`: sum of `story_points` over tasks excluding
status CANCELLED. -/
def spec_scoped_non_cancelled (tasks : List Task) : ℚ :=
  ((tasks.filter (fun t => decide (t.status ≠ TaskStatus.CANCELLED))).map
    Task.storyPoints).sum

/-- The story-point-weighted progress average actually implemented: the
accumulated `storyPoints * progress` of the non-CANCELLED tasks divided by
`max 1` of their accumulated story points. -/
def spec_weighted_progress (tasks : List Task) : ℚ :=
  let nc := tasks.filter (fun t => decide (t.status ≠ TaskStatus.CANCELLED))
  ((nc.map (fun t => t.storyPoints * t.progress.getD 0)).sum) /
    max 1 ((nc.map Task.storyPoints).sum)

/-- A concrete baseline task for witnesses and counterexamples. -/
def task0 : Task :=
  { id := 1, sprintId := 1, projectId := 1, key := "T-1", summary := "task",
    storyPoints := 0, deliverySprint := "", status := TaskStatus.TODO,
    rft := TASKRFT.DEFAULT, technicalLoad := some 0, timeSpent := some 0,
    timeRemaining := none, progress := none, delta := none,
    is_deleted := false, is_cascade_deleted := false }

/-- A concrete baseline sprint (2025-02-04 to 2025-02-11 as date ordinals). -/
def sprint0 : Sprint :=
  { id := 1, projectId := 1, sprintName := "Sprint 1", status := SprintStatus.TODO,
    startDate := 739286, dueDate := 739293, capacity := 40, is_deleted := false }

/-- A DONE task whose delivery sprint ("other") is not the current one. -/
def taskDoneOther : Task :=
  { task0 with status := TaskStatus.DONE, deliverySprint := "other", storyPoints := 5 }

/-- A concrete baseline project with workload ratio 2. -/
def project0 : Project :=
  { id := 1, projectName := "P", status := ProjectStatus.INPROGRESS, centerId := none,
    is_deleted := false, transversal_vs_technical_workload_ratio := 2,
    task_statuses := [], task_types := [] }

/-- The spec's ratio-change example: an "auto" task whose `timeRemaining`
still equals its `technicalLoad` of 5 (10 story points at ratio 2). -/
def taskAuto : Task :=
  { task0 with
    id := 10, storyPoints := 10, technicalLoad := some 5,
    timeSpent := some 0, timeRemaining := some 5 }

/-- The spec's ratio-change example: a sibling task whose `timeRemaining` was
manually set to 1. -/
def taskManual : Task :=
  { taskAuto with id := 11, timeRemaining := some 1 }

/-- The spec's own example task: 10 story points, 2 spent, 3 remaining. -/
def taskSpecExample : Task :=
  { task0 with storyPoints := 10, timeSpent := some 2, timeRemaining := some 3 }

/-! Helper lemmas relating the accumulator loops of the source functions to
filtered sums. -/

theorem velocity_foldl_eq (sprint_name : String) (a : ℚ) (tasks : List Task) :
    tasks.foldl
      (fun acc t =>
        if t.status = TaskStatus.DONE ∧ is_delivery_sprint_current t sprint_name then
          acc + t.storyPoints
        else acc) a
      = a + spec_velocity tasks sprint_name := by
  induction tasks generalizing a with
  | nil => simp [spec_velocity]
  | cons t ts ih =>
    by_cases h : t.status = TaskStatus.DONE ∧ t.deliverySprint = sprint_name
    · have hcond : t.status = TaskStatus.DONE ∧ is_delivery_sprint_current t sprint_name = true :=
        ⟨h.1, by simp [is_delivery_sprint_current, h.2]⟩
      have hd : decide (t.status = TaskStatus.DONE ∧ t.deliverySprint = sprint_name) = true := by
        simp [h.1, h.2]
      rw [List.foldl_cons, if_pos hcond, ih]
      simp only [spec_velocity, List.filter_cons, hd, if_true, List.map_cons, List.sum_cons]
      ring
    · have hcond : ¬ (t.status = TaskStatus.DONE ∧ is_delivery_sprint_current t sprint_name = true) := by
        intro hc
        exact h ⟨hc.1, by simpa [is_delivery_sprint_current] using hc.2⟩
      have hd : decide (t.status = TaskStatus.DONE ∧ t.deliverySprint = sprint_name) = false := by
        simp only [decide_eq_false_iff_not]
        exact h
      rw [List.foldl_cons, if_neg hcond, ih]
      simp only [spec_velocity, List.filter_cons, hd, Bool.false_eq_true, if_false]

theorem story_points_foldl_eq (a : ℚ) (tasks : List Task) :
    tasks.foldl (fun acc t => acc + t.storyPoints) a = a + (tasks.map Task.storyPoints).sum := by
  induction tasks generalizing a with
  | nil => simp
  | cons t ts ih => simp only [List.foldl_cons, ih, List.map_cons, List.sum_cons]; ring

theorem progress_foldl_eq (a : ℚ × ℚ) (tasks : List Task) :
    tasks.foldl
      (fun acc t =>
        if t.status ≠ TaskStatus.CANCELLED then
          (acc.1 + t.storyPoints, acc.2 + t.storyPoints * t.progress.getD 0)
        else acc) a
      = (a.1 + ((tasks.filter (fun t => decide (t.status ≠ TaskStatus.CANCELLED))).map
            Task.storyPoints).sum,
         a.2 + ((tasks.filter (fun t => decide (t.status ≠ TaskStatus.CANCELLED))).map
            (fun t => t.storyPoints * t.progress.getD 0)).sum) := by
  induction tasks generalizing a with
  | nil => simp
  | cons t ts ih =>
    by_cases h : t.status = TaskStatus.CANCELLED
    · have hcond : ¬ (t.status ≠ TaskStatus.CANCELLED) := fun hn => hn h
      have hd : decide (t.status ≠ TaskStatus.CANCELLED) = false := by
        simp only [decide_eq_false_iff_not]
        exact hcond
      rw [List.foldl_cons, if_neg hcond, ih]
      simp only [List.filter_cons, hd, Bool.false_eq_true, if_false]
    · have hd : decide (t.status ≠ TaskStatus.CANCELLED) = true := by
        simp only [decide_eq_true_eq]
        exact h
      rw [List.foldl_cons, if_pos h, ih]
      simp only [List.filter_cons, hd, if_true, List.map_cons, List.sum_cons]
      rw [Prod.mk.injEq]
      constructor <;> ring

/-- `calculate_velocity` is exactly the spec's filtered story-point sum. -/
theorem calculate_velocity_eq_spec (tasks : List Task) (sprint_name : String) :
    calculate_velocity tasks sprint_name = spec_velocity tasks sprint_name := by
  simpa using velocity_foldl_eq sprint_name 0 tasks

/-- `calculate_story_points` sums the story points of all tasks, with no
status filter. -/
theorem calculate_story_points_eq_sum (tasks : List Task) :
    calculate_story_points tasks = (tasks.map Task.storyPoints).sum := by
  simpa [calculate_story_points] using story_points_foldl_eq 0 tasks

/-- The non-empty branch of `calculate_progress` is the implemented weighted
average. -/
theorem calculate_progress_eq_spec (tasks : List Task) (h : tasks ≠ []) :
    calculate_progress tasks = spec_weighted_progress tasks := by
  have hne : tasks.isEmpty = false := by
    cases tasks with
    | nil => exact absurd rfl h
    | cons t ts => rfl
  simp only [calculate_progress, hne, Bool.false_eq_true, if_false, progress_foldl_eq,
    spec_weighted_progress, zero_add]

/-- Evaluation of `calculate_sprint_metrics` on an empty task list. -/
theorem calculate_sprint_metrics_nil (s : Sprint) (acts : List SprintTransversalActivity) :
    calculate_sprint_metrics s acts [] = some
      { «scoped» := 0, velocity := 0, progress := 0,
        technical_time_spent := none, transversal_time_spent := none,
        time_spent := 0, duration := calculate_weekdays s.startDate s.dueDate,
        otd := 0, oqd := 0 } := rfl

/-- Evaluation of `calculate_sprint_metrics` on a non-empty task list whose
total time is defined. -/
theorem calculate_sprint_metrics_nonempty (s : Sprint) (acts : List SprintTransversalActivity)
    (tasks : List Task) (tt : ℚ) (hne : tasks.isEmpty = false)
    (htt : calculate_total_time tasks = some tt) :
    calculate_sprint_metrics s acts tasks = some
      { «scoped» := pyRound (calculate_story_points tasks) 1
      , velocity := (⌊calculate_velocity tasks s.sprintName⌋ : ℚ)
      , progress := (⌊calculate_progress tasks⌋ : ℚ)
      , technical_time_spent := some (pyRound tt 2)
      , transversal_time_spent := some (pyRound (calculate_transversal_time acts) 2)
      , time_spent := pyRound (tt + calculate_transversal_time acts) 2
      , duration := calculate_weekdays s.startDate s.dueDate
      , otd := (⌊calculate_otd s.status (calculate_velocity tasks s.sprintName)
          (calculate_story_points tasks)⌋ : ℚ)
      , oqd := (⌊calculate_oqd s.sprintName s.status tasks⌋ : ℚ) } := by
  simp only [calculate_sprint_metrics, hne, Bool.false_eq_true, if_false, htt]



/--
C6: the sprint-metrics velocity computation (`calculate_velocity`) returns the
sum of `storyPoints` over exactly those tasks whose status is DONE and whose
delivery sprint name (`deliverySprint`) equals the current sprint's name, and a
DONE task whose delivery sprint differs from the current sprint contributes
nothing to the velocity.
-/
theorem claim_C6_velocity :
    (∀ (tasks : List Task) (sprint_name : String),
      calculate_velocity tasks sprint_name = spec_velocity tasks sprint_name) ∧
    (∀ (t : Task) (tasks : List Task) (sprint_name : String),
      t.status = TaskStatus.DONE → is_delivery_sprint_current t sprint_name = false →
      calculate_velocity (t :: tasks) sprint_name = calculate_velocity tasks sprint_name) := by
  constructor
  · exact calculate_velocity_eq_spec
  · intro t tasks n hd hns
    have hcond : ¬ (t.status = TaskStatus.DONE ∧ is_delivery_sprint_current t n = true) := by
      intro hc
      rw [hns] at hc
      cases hc.2
    simp only [calculate_velocity, List.foldl_cons]
    rw [if_neg hcond]



/-- Witness for C6 at a concrete input: a DONE task delivered in sprint
"other" contributes nothing to the velocity of "Sprint 1". -/
theorem claim_C6_velocity_witness :
    taskDoneOther.status = TaskStatus.DONE ∧
    is_delivery_sprint_current taskDoneOther "Sprint 1" = false ∧
    calculate_velocity [taskDoneOther] "Sprint 1" = calculate_velocity [] "Sprint 1" :=
  ⟨rfl, by simp [is_delivery_sprint_current, taskDoneOther, task0],
    claim_C6_velocity.2 _ [] _ rfl
      (by simp [is_delivery_sprint_current, taskDoneOther, task0])⟩

/--
C9 counterexample: a single CANCELLED task with 3 story points.
`calculate_story_points` (and hence the sprint-metrics `scoped`) counts its
3 points, while the claimed CANCELLED-excluding sum is 0: a CANCELLED task
does contribute to `scoped`.
-/
theorem claim_C9_scoped_cex :
    calculate_story_points [{ task0 with storyPoints := 3, status := TaskStatus.CANCELLED }] = 3 ∧
    (calculate_sprint_metrics sprint0 []
        [{ task0 with storyPoints := 3, status := TaskStatus.CANCELLED }]).map
          SprintMetrics.«scoped» = some 3 ∧
    spec_scoped_non_cancelled
      [{ task0 with storyPoints := 3, status := TaskStatus.CANCELLED }] = 0 := by
  refine ⟨?_, ?_, ?_⟩
  · simp [calculate_story_points, task0]
  · have htt : calculate_total_time
        [{ task0 with storyPoints := 3, status := TaskStatus.CANCELLED }] = some 0 := by
      simp [calculate_total_time, task0]
    rw [calculate_sprint_metrics_nonempty sprint0 []
      [{ task0 with storyPoints := 3, status := TaskStatus.CANCELLED }] 0 rfl htt]
    have hsp : calculate_story_points
        [{ task0 with storyPoints := 3, status := TaskStatus.CANCELLED }] = 3 := by
      simp [calculate_story_points, task0]
    simp only [Option.map_some, hsp]
    norm_num [pyRound, roundHalfEven]
  · simp [spec_scoped_non_cancelled, task0]

/--
C9 amended: the sprint-metrics `scoped` equals the sum of `storyPoints` over
ALL of the sprint's tasks — CANCELLED ones included — rounded to one decimal
(`calculate_story_points` applies no status filter).
-/
theorem claim_C9_scoped_amended :
    (∀ tasks : List Task, calculate_story_points tasks = (tasks.map Task.storyPoints).sum) ∧
    (∀ (s : Sprint) (acts : List SprintTransversalActivity) (tasks : List Task)
        (m : SprintMetrics),
      calculate_sprint_metrics s acts tasks = some m →
      m.«scoped» = pyRound ((tasks.map Task.storyPoints).sum) 1) := by
  constructor
  · exact calculate_story_points_eq_sum
  · intro s acts tasks m hm
    by_cases hne : tasks.isEmpty = true
    · have h0 : tasks = [] := List.isEmpty_iff.mp hne
      subst h0
      rw [calculate_sprint_metrics_nil] at hm
      cases hm
      norm_num [pyRound, roundHalfEven]
    · have hne' : tasks.isEmpty = false := by
        cases h : tasks.isEmpty
        · rfl
        · exact absurd h hne
      cases htt : calculate_total_time tasks with
      | none =>
        rw [calculate_sprint_metrics] at hm
        simp [hne', htt] at hm
      | some tt =>
        rw [calculate_sprint_metrics_nonempty s acts tasks tt hne' htt] at hm
        cases hm
        simp only []
        rw [calculate_story_points_eq_sum]

/-- Witness for C9 amended at a concrete input: the baseline task with 0
story points. -/
theorem claim_C9_scoped_amended_witness :
    calculate_sprint_metrics sprint0 [] [task0] = some
      { «scoped» := 0, velocity := 0, progress := 0,
        technical_time_spent := some 0, transversal_time_spent := some 0,
        time_spent := 0,
        duration := calculate_weekdays sprint0.startDate sprint0.dueDate,
        otd := 0, oqd := 0 } ∧
    (0 : ℚ) = pyRound (([task0].map Task.storyPoints).sum) 1 := by
  have htt : calculate_total_time [task0] = some 0 := by
    simp [calculate_total_time, task0]
  have hsp : calculate_story_points [task0] = 0 := by
    simp [calculate_story_points, task0]
  have hv : calculate_velocity [task0] "Sprint 1" = 0 := by
    simp [calculate_velocity, task0, is_delivery_sprint_current]
  have hp : calculate_progress [task0] = 0 := by
    simp [calculate_progress, task0]
  have hoqd : calculate_oqd "Sprint 1" SprintStatus.TODO [task0] = 0 := by
    simp [calculate_oqd]
  have htr : calculate_transversal_time ([] : List SprintTransversalActivity) = 0 := rfl
  have hr0 : pyRound 0 1 = 0 := by norm_num [pyRound, roundHalfEven]
  have hr2 : pyRound 0 2 = 0 := by norm_num [pyRound, roundHalfEven]
  have hm : calculate_sprint_metrics sprint0 [] [task0] = some
      { «scoped» := 0, velocity := 0, progress := 0,
        technical_time_spent := some 0, transversal_time_spent := some 0,
        time_spent := 0,
        duration := calculate_weekdays sprint0.startDate sprint0.dueDate,
        otd := 0, oqd := 0 } := by
    rw [calculate_sprint_metrics_nonempty sprint0 [] [task0] 0 rfl htt]
    simp only [sprint0, hsp, hv, hp, hoqd, htr, calculate_otd, add_zero, hr0, hr2]
    norm_num
  refine ⟨hm, ?_⟩
  have h2 := claim_C9_scoped_amended.2 sprint0 [] [task0] _ hm
  simpa using h2

/--
C3 counterexample: on an empty task list `calculate_sprint_metrics` takes its
early-return branch and reports `progress = 0`, not the claimed 100 (even
though the helper `calculate_progress` alone returns 100 on an empty list).
-/
theorem claim_C3_progress_cex :
    (calculate_sprint_metrics sprint0 [] []).map SprintMetrics.progress = some 0 ∧
    (calculate_sprint_metrics sprint0 [] []).map SprintMetrics.progress ≠ some 100 := by
  rw [calculate_sprint_metrics_nil]
  refine ⟨rfl, ?_⟩
  simp only [Option.map_some, ne_eq, Option.some.injEq]
  norm_num

/--
C3 amended: on a non-empty task list the sprint-metrics progress is the floor
of the accumulated `storyPoints * progress` of the non-CANCELLED tasks divided
by `max 1` of their accumulated story points (so a zero story-point total
divides by 1, not the claimed 100-convention); on an empty task list the
sprint metrics report `progress = 0` together with zero `otd`, `oqd`,
`velocity`, `scoped` and `time_spent`, while the helper `calculate_progress`
alone returns 100 on an empty list.
-/
theorem claim_C3_progress_amended :
    (∀ (s : Sprint) (acts : List SprintTransversalActivity) (tasks : List Task)
        (m : SprintMetrics),
      tasks ≠ [] → calculate_sprint_metrics s acts tasks = some m →
      m.progress = (⌊spec_weighted_progress tasks⌋ : ℚ)) ∧
    (∀ (s : Sprint) (acts : List SprintTransversalActivity),
      ∃ m, calculate_sprint_metrics s acts [] = some m ∧
        m.progress = 0 ∧ m.otd = 0 ∧ m.oqd = 0 ∧ m.velocity = 0 ∧ m.«scoped» = 0 ∧
        m.time_spent = 0) ∧
    calculate_progress [] = 100 := by
  refine ⟨?_, ?_, rfl⟩
  · intro s acts tasks m hne hm
    have hne' : tasks.isEmpty = false := by
      cases tasks with
      | nil => exact absurd rfl hne
      | cons t ts => rfl
    cases htt : calculate_total_time tasks with
    | none =>
      rw [calculate_sprint_metrics] at hm
      simp [hne', htt] at hm
    | some tt =>
      rw [calculate_sprint_metrics_nonempty s acts tasks tt hne' htt] at hm
      cases hm
      simp only []
      rw [calculate_progress_eq_spec tasks hne]
  · intro s acts
    exact ⟨_, calculate_sprint_metrics_nil s acts, rfl, rfl, rfl, rfl, rfl, rfl⟩

/-- Witness for C3 amended at a concrete input: the baseline task list
`[task0]` is non-empty and its floored weighted progress is 0. -/
theorem claim_C3_progress_amended_witness :
    ([task0] : List Task) ≠ [] ∧
    calculate_sprint_metrics sprint0 [] [task0] = some
      { «scoped» := 0, velocity := 0, progress := 0,
        technical_time_spent := some 0, transversal_time_spent := some 0,
        time_spent := 0,
        duration := calculate_weekdays sprint0.startDate sprint0.dueDate,
        otd := 0, oqd := 0 } ∧
    (0 : ℚ) = (⌊spec_weighted_progress [task0]⌋ : ℚ) := by
  have htt : calculate_total_time [task0] = some 0 := by
    simp [calculate_total_time, task0]
  have hsp : calculate_story_points [task0] = 0 := by
    simp [calculate_story_points, task0]
  have hv : calculate_velocity [task0] "Sprint 1" = 0 := by
    simp [calculate_velocity, task0, is_delivery_sprint_current]
  have hp : calculate_progress [task0] = 0 := by
    simp [calculate_progress, task0]
  have hoqd : calculate_oqd "Sprint 1" SprintStatus.TODO [task0] = 0 := by
    simp [calculate_oqd]
  have hr0 : pyRound 0 1 = 0 := by norm_num [pyRound, roundHalfEven]
  have hr2 : pyRound 0 2 = 0 := by norm_num [pyRound, roundHalfEven]
  have hm : calculate_sprint_metrics sprint0 [] [task0] = some
      { «scoped» := 0, velocity := 0, progress := 0,
        technical_time_spent := some 0, transversal_time_spent := some 0,
        time_spent := 0,
        duration := calculate_weekdays sprint0.startDate sprint0.dueDate,
        otd := 0, oqd := 0 } := by
    rw [calculate_sprint_metrics_nonempty sprint0 [] [task0] 0 rfl htt]
    simp only [sprint0, hsp, hv, hp, hoqd, calculate_transversal_time, calculate_otd,
      List.foldl_nil, add_zero, hr0, hr2]
    norm_num
  refine ⟨by simp, hm, ?_⟩
  have h1 := claim_C3_progress_amended.1 sprint0 [] [task0] _ (by simp) hm
  simpa using h1

/--
C8 counterexample: `calculate_task_metrics` has no guard on a non-positive
ratio.  At ratio 0 the division `storyPoints / ratio` raises
`ZeroDivisionError` (modelled as `none`) instead of returning
`technicalLoad = 0`, and at ratio -2 a task with 10 story points gets
`technicalLoad = -5`, not 0.
-/
theorem claim_C8_ratio_guard_cex :
    calculate_task_metrics { task0 with storyPoints := 10 } 0 = none ∧
    (calculate_task_metrics { task0 with storyPoints := 10 } (-2)).map
      TaskMetrics.technical_load = some (-5) := by
  constructor
  · simp [calculate_task_metrics, task0]
  · simp only [calculate_task_metrics, task0]
    norm_num [pyRound, roundHalfEven]

/--
C8 amended: `calculate_task_metrics` is not total in the ratio: at ratio 0 it
fails (`ZeroDivisionError`, modelled as `none`) for every task; for every
non-zero ratio (negative ones included) and every task whose `timeSpent` is
not `None` it returns `technicalLoad = storyPoints / ratio` rounded to two
decimals — which is not 0 for a negative ratio and positive story points.
-/
theorem claim_C8_ratio_guard_amended :
    (∀ t : Task, calculate_task_metrics t 0 = none) ∧
    (∀ (t : Task) (r : ℚ), r ≠ 0 → t.timeSpent ≠ none →
      (calculate_task_metrics t r).map TaskMetrics.technical_load
        = some (pyRound (t.storyPoints / r) 2)) := by
  constructor
  · intro t
    rw [calculate_task_metrics]
    by_cases hu : t.timeSpent.getD 0 + t.timeRemaining.getD 0 = 0
    · simp [hu]
    · cases hts : t.timeSpent with
      | none =>
        have hu1 : ¬ t.timeRemaining.getD 0 = 0 := by simpa [hts] using hu
        simp [hu1]
      | some ts =>
        have hu1 : ¬ ts + t.timeRemaining.getD 0 = 0 := by simpa [hts] using hu
        simp [hu1]
  · intro t r hr hts
    obtain ⟨ts, hts'⟩ := Option.ne_none_iff_exists'.mp hts
    rw [calculate_task_metrics]
    by_cases hu : t.timeSpent.getD 0 + t.timeRemaining.getD 0 = 0
    · simp [hu, hr]
    · have hu1 : ¬ ts + t.timeRemaining.getD 0 = 0 := by simpa [hts'] using hu
      simp [hts', hu1, hr]







/-- `recalc_task` resets `timeRemaining` to the new `technical_load` exactly
when the stored `timeRemaining` equals the stored (previous) `technicalLoad`. -/
theorem recalc_task_timeRemaining (t : Task) (m : TaskMetrics) :
    (recalc_task t m).timeRemaining =
      if t.timeRemaining = t.technicalLoad then some m.technical_load else t.timeRemaining := by
  by_cases h : t.timeRemaining = t.technicalLoad <;> simp [recalc_task, h]

/-- When every metrics computation is defined and every save succeeds, the
recalculation loop returns `true` and writes back exactly `recalc_task` of
each input task, in order. -/
theorem recalc_loop_all_ok (ratio : ℚ) (tasks : List Task)
    (h : ∀ t ∈ tasks, (calculate_task_metrics t ratio).isSome = true) :
    (recalc_loop ratio (fun _ => true) tasks).2 = true ∧
    List.Forall₂ (fun t t1 => ∃ m, calculate_task_metrics t ratio = some m ∧
      t1 = recalc_task t m) tasks (recalc_loop ratio (fun _ => true) tasks).1 := by
  induction tasks with
  | nil => exact ⟨rfl, List.Forall₂.nil⟩
  | cons t ts ih =>
    have ht := h t (List.mem_cons_self t ts)
    obtain ⟨m, hm⟩ := Option.isSome_iff_exists.mp ht
    have ihh := ih (fun x hx => h x (List.mem_cons_of_mem t hx))
    rw [recalc_loop, hm]
    constructor
    · simpa using ihh.1
    · exact List.Forall₂.cons ⟨m, hm, rfl⟩ (by simpa using ihh.2)

/--
C2 counterexample: the stored ratio is 2 and the update sets it to 5; the
single task's write back fails (`saveOk` is constantly `false`), so the
recalculation pass stops with `False` — yet `update_project` returns a normal
`Except.ok` outcome carrying the updated project.  The persistence failure is
swallowed, not propagated.
-/
theorem claim_C2_swallow_cex :
    (recalc_loop 5 (fun _ => false) [taskAuto]).2 = false ∧
    update_project project0 [taskAuto] { id := 1, technicalLoadRatio := some 5 }
        (fun _ => false)
      = Except.ok
        { project := { project0 with transversal_vs_technical_workload_ratio := 5 }
        , savedTasks := []
        , recalcTriggered := true
        , recalcOk := false } := by
  have hm : calculate_task_metrics taskAuto 5
      = some { technical_load := 2, delta := -3, progress := 0 } := by
    rw [calculate_task_metrics]
    norm_num [taskAuto, task0, pyRound, roundHalfEven, pyTrunc]
  have hloop : recalc_loop 5 (fun _ => false) [taskAuto] = ([], false) := by
    rw [recalc_loop, hm]
    rfl
  refine ⟨by rw [hloop], ?_⟩
  have hcond : (({ id := 1, technicalLoadRatio := some 5 } : ProjectUpdate)).technicalLoadRatio.isSome = true ∧
      (apply_update project0 { id := 1, technicalLoadRatio := some 5 }).transversal_vs_technical_workload_ratio
        ≠ project0.transversal_vs_technical_workload_ratio := by
    constructor
    · rfl
    · norm_num [apply_update, project0]
  rw [update_project, if_pos hcond]
  have hp1 : apply_update project0 { id := 1, technicalLoadRatio := some 5 }
      = { project0 with transversal_vs_technical_workload_ratio := 5 } := by
    simp [apply_update, project0]
  rw [recalculate_project_tasks, hp1]
  simp only [hloop]

/--
C2 amended: a persistence or computation failure during the recalculation pass
is caught inside `_recalculate_project_tasks`, which merely returns `False`;
`update_project` discards that boolean and completes normally, so no failure
of the pass ever propagates to the caller of the project update.
-/
theorem claim_C2_swallow_amended :
    ∀ (p : Project) (tasks : List Task) (u : ProjectUpdate) (saveOk : Task → Bool),
      ∃ out : UpdateOutcome, update_project p tasks u saveOk = Except.ok out ∧
        out.project = apply_update p u := by
  intro p tasks u saveOk
  rw [update_project]
  split
  · exact ⟨_, rfl, rfl⟩
  · exact ⟨_, rfl, rfl⟩

/--
C7: when a project update changes the workload ratio to `r` and the
recalculation succeeds, every task whose stored `timeRemaining` equals its
previous `technicalLoad` is written back with `timeRemaining` set to the newly
computed `technical_load`, and every task whose stored `timeRemaining` differs
from its previous `technicalLoad` keeps its `timeRemaining` unchanged.
-/
theorem claim_C7_time_remaining_sync :
    ∀ (p : Project) (tasks : List Task) (u : ProjectUpdate) (r : ℚ),
      u.technicalLoadRatio = some r →
      r ≠ p.transversal_vs_technical_workload_ratio →
      (∀ t ∈ tasks, (calculate_task_metrics t r).isSome = true) →
      ∃ out : UpdateOutcome,
        update_project p tasks u (fun _ => true) = Except.ok out ∧
        out.recalcTriggered = true ∧ out.recalcOk = true ∧
        List.Forall₂ (fun t t1 =>
          ∃ m, calculate_task_metrics t r = some m ∧
            (t.timeRemaining = t.technicalLoad → t1.timeRemaining = some m.technical_load) ∧
            (t.timeRemaining ≠ t.technicalLoad → t1.timeRemaining = t.timeRemaining))
          tasks out.savedTasks := by
  intro p tasks u r hu hrne hdef
  have hr1 : (apply_update p u).transversal_vs_technical_workload_ratio = r := by
    simp [apply_update, hu]
  have hcond : u.technicalLoadRatio.isSome = true ∧
      (apply_update p u).transversal_vs_technical_workload_ratio
        ≠ p.transversal_vs_technical_workload_ratio := by
    constructor
    · simp [hu]
    · rw [hr1]; exact hrne
  rw [update_project, if_pos hcond]
  refine ⟨_, rfl, rfl, ?_, ?_⟩
  · show (recalculate_project_tasks (some (apply_update p u)) tasks _).2 = true
    rw [recalculate_project_tasks, hr1]
    exact (recalc_loop_all_ok r tasks hdef).1
  · show List.Forall₂ _ tasks (recalculate_project_tasks (some (apply_update p u)) tasks _).1
    rw [recalculate_project_tasks, hr1]
    refine List.Forall₂.imp ?_ (recalc_loop_all_ok r tasks hdef).2
    intro t t1 hx
    obtain ⟨m, hm, ht1⟩ := hx
    refine ⟨m, hm, ?_, ?_⟩
    · intro heq
      rw [ht1, recalc_task_timeRemaining, if_pos heq]
    · intro hne
      rw [ht1, recalc_task_timeRemaining, if_neg hne]

/-- Witness for C7 at the spec's own ratio-change example: ratio 2 updated to
5; the auto task (timeRemaining 5 = old technicalLoad 5) and the manually
edited sibling (timeRemaining 1). -/
theorem claim_C7_time_remaining_sync_witness :
    ({ id := 1, technicalLoadRatio := some 5 } : ProjectUpdate).technicalLoadRatio = some 5 ∧
    (5 : ℚ) ≠ project0.transversal_vs_technical_workload_ratio ∧
    (∀ t ∈ [taskAuto, taskManual], (calculate_task_metrics t 5).isSome = true) ∧
    (∃ out : UpdateOutcome,
      update_project project0 [taskAuto, taskManual]
          { id := 1, technicalLoadRatio := some 5 } (fun _ => true) = Except.ok out ∧
      out.recalcTriggered = true ∧ out.recalcOk = true ∧
      List.Forall₂ (fun t t1 =>
        ∃ m, calculate_task_metrics t 5 = some m ∧
          (t.timeRemaining = t.technicalLoad → t1.timeRemaining = some m.technical_load) ∧
          (t.timeRemaining ≠ t.technicalLoad → t1.timeRemaining = t.timeRemaining))
        [taskAuto, taskManual] out.savedTasks) := by
  have hA : calculate_task_metrics taskAuto 5
      = some { technical_load := 2, delta := -3, progress := 0 } := by
    rw [calculate_task_metrics]
    norm_num [taskAuto, task0, pyRound, roundHalfEven, pyTrunc]
  have hM : calculate_task_metrics taskManual 5
      = some { technical_load := 2, delta := 1, progress := 0 } := by
    rw [calculate_task_metrics]
    norm_num [taskManual, taskAuto, task0, pyRound, roundHalfEven, pyTrunc]
  have hdef : ∀ t ∈ [taskAuto, taskManual], (calculate_task_metrics t 5).isSome = true := by
    intro t ht
    rcases List.mem_cons.mp ht with h | h
    · rw [h, hA]; rfl
    · rw [List.mem_singleton.mp h, hM]; rfl
  exact ⟨rfl, by norm_num [project0], hdef,
    claim_C7_time_remaining_sync project0 [taskAuto, taskManual] _ 5 rfl
      (by norm_num [project0]) hdef⟩

/--
C10: a project update whose payload does not change the workload ratio — the
`technicalLoadRatio` field is absent, or present with a value equal to the
stored ratio — leaves the project's tasks alone: the recalculation pass is not
triggered and no task is written back.
-/
theorem claim_C10_frame :
    ∀ (p : Project) (tasks : List Task) (u : ProjectUpdate) (saveOk : Task → Bool),
      (u.technicalLoadRatio = none ∨
        u.technicalLoadRatio = some p.transversal_vs_technical_workload_ratio) →
      update_project p tasks u saveOk
        = Except.ok
          { project := apply_update p u
          , savedTasks := []
          , recalcTriggered := false
          , recalcOk := true } := by
  intro p tasks u saveOk h
  rw [update_project]
  rcases h with h | h
  · rw [if_neg]
    intro hc
    rw [h] at hc
    exact Bool.false_ne_true hc.1
  · rw [if_neg]
    intro hc
    apply hc.2
    simp [apply_update, h]

/-- Witness for C10 at a concrete input: the payload `{ id := 1 }` carries no
`technicalLoadRatio`, so the task list is left alone. -/
theorem claim_C10_frame_witness :
    (({ id := 1 } : ProjectUpdate).technicalLoadRatio = none ∨
      ({ id := 1 } : ProjectUpdate).technicalLoadRatio
        = some project0.transversal_vs_technical_workload_ratio) ∧
    update_project project0 [taskAuto] { id := 1 } (fun _ => true)
      = Except.ok
        { project := apply_update project0 { id := 1 }
        , savedTasks := []
        , recalcTriggered := false
        , recalcOk := true } :=
  ⟨Or.inl rfl, claim_C10_frame project0 [taskAuto] { id := 1 } _ (Or.inl rfl)⟩



/-- Witness for C8 amended at the spec's own example task and ratio 2. -/
theorem claim_C8_ratio_guard_amended_witness :
    (2 : ℚ) ≠ 0 ∧
    taskSpecExample.timeSpent ≠ none ∧
    (calculate_task_metrics taskSpecExample 2).map TaskMetrics.technical_load
      = some (pyRound (taskSpecExample.storyPoints / 2) 2) :=
  ⟨by norm_num, by simp [taskSpecExample, task0],
    claim_C8_ratio_guard_amended.2 taskSpecExample 2
      (by norm_num) (by simp [taskSpecExample, task0])⟩

namespace Cascade

theorem map_idOf_saveBy (idOf : α → Nat) (xs : List α) (x : α) :
    (saveBy idOf xs x).map idOf = xs.map idOf := by
  unfold saveBy
  rw [List.map_map]
  apply List.map_congr_left
  intro y hy
  by_cases h : idOf y = idOf x
  · simp [Function.comp, h]
  · simp [Function.comp, h]

theorem mem_saveBy_of_ne (idOf : α → Nat) (xs : List α) (x y : α)
    (hy : y ∈ xs) (hne : idOf y ≠ idOf x) : y ∈ saveBy idOf xs x := by
  unfold saveBy
  exact List.mem_map.mpr ⟨y, hy, by simp [hne]⟩

theorem mem_saveBy_self (idOf : α → Nat) (xs : List α) (x z : α)
    (hz : z ∈ xs) (hid : idOf z = idOf x) : x ∈ saveBy idOf xs x := by
  unfold saveBy
  exact List.mem_map.mpr ⟨z, hz, by simp [hid]⟩

theorem mem_saveBy_elim (idOf : α → Nat) (xs : List α) (x : α) {y : α}
    (hy : y ∈ saveBy idOf xs x) : y = x ∨ (y ∈ xs ∧ idOf y ≠ idOf x) := by
  obtain ⟨z, hz, hzy⟩ := List.mem_map.mp hy
  by_cases h : idOf z = idOf x
  · left
    rw [← hzy]
    simp [h]
  · right
    have hzy1 : y = z := by rw [← hzy]; simp [h]
    rw [hzy1]
    exact ⟨hz, h⟩

theorem findLive_eq_none_iff (idOf : α → Nat) (delOf : α → Bool) (xs : List α) (i : Nat) :
    findLive idOf delOf xs i = none ↔ ∀ x ∈ xs, idOf x = i → delOf x = true := by
  unfold findLive
  rw [List.find?_eq_none]
  constructor
  · intro h x hx hid
    have hx1 := h x hx
    simp only [decide_eq_true_eq, not_and] at hx1
    have := hx1 hid
    cases hd : delOf x
    · exact absurd hd this
    · rfl
  · intro h x hx
    simp only [decide_eq_true_eq, not_and]
    intro hid hdel
    rw [h x hx hid] at hdel
    cases hdel

theorem findLive_some (idOf : α → Nat) (delOf : α → Bool) (xs : List α) (i : Nat) {x : α}
    (h : findLive idOf delOf xs i = some x) :
    x ∈ xs ∧ idOf x = i ∧ delOf x = false := by
  have hmem := List.mem_of_find?_eq_some h
  have hp := List.find?_some h
  simp only [decide_eq_true_eq] at hp
  exact ⟨hmem, hp.1, hp.2⟩

theorem findLive_isSome (idOf : α → Nat) (delOf : α → Bool) (xs : List α) (x : α)
    (hx : x ∈ xs) (hlive : delOf x = false) :
    (findLive idOf delOf xs (idOf x)).isSome = true := by
  unfold findLive
  rw [List.find?_isSome]
  exact ⟨x, hx, by simp [hlive]⟩

/-- With pairwise-distinct ids, the live document found under a given member's
id is that member itself. -/
theorem findLive_eq_self (idOf : α → Nat) (delOf : α → Bool) (xs : List α) (x : α)
    (hnd : (xs.map idOf).Nodup) (hx : x ∈ xs) (hlive : delOf x = false) :
    findLive idOf delOf xs (idOf x) = some x := by
  cases h : findLive idOf delOf xs (idOf x) with
  | none =>
    have := (findLive_eq_none_iff idOf delOf xs (idOf x)).mp h x hx rfl
    rw [hlive] at this
    cases this
  | some y =>
    obtain ⟨hymem, hyid, _⟩ := findLive_some idOf delOf xs (idOf x) h
    have := List.inj_on_of_nodup_map hnd hymem hx hyid
    rw [this]

section SoftDeleteLemmas

variable {α : Type} (idOf : α → Nat) (delOf : α → Bool) (mark : α → α)

theorem softDelete_map_idOf (hid : ∀ x, idOf (mark x) = idOf x) (xs : List α) (i : Nat) :
    ((softDelete idOf delOf mark xs i).1).map idOf = xs.map idOf := by
  unfold softDelete
  cases h : findLive idOf delOf xs i with
  | none => rfl
  | some x => exact map_idOf_saveBy idOf xs (mark x)

theorem softDelete_preserves_deleted (hid : ∀ x, idOf (mark x) = idOf x)
    (xs : List α) (i : Nat) (y : α) (hnd : (xs.map idOf).Nodup)
    (hy : y ∈ xs) (hdel : delOf y = true) :
    y ∈ (softDelete idOf delOf mark xs i).1 := by
  unfold softDelete
  cases h : findLive idOf delOf xs i with
  | none => exact hy
  | some x =>
    obtain ⟨hxmem, _, hxlive⟩ := findLive_some idOf delOf xs i h
    apply mem_saveBy_of_ne idOf xs (mark x) y hy
    rw [hid]
    intro hcontra
    have := List.inj_on_of_nodup_map hnd hy hxmem hcontra
    rw [this, hxlive] at hdel
    cases hdel

theorem softDelete_preserves_other (xs : List α) (i : Nat) (y : α)
    (hid : ∀ x, idOf (mark x) = idOf x) (hy : y ∈ xs) (hne : idOf y ≠ i) :
    y ∈ (softDelete idOf delOf mark xs i).1 := by
  unfold softDelete
  cases h : findLive idOf delOf xs i with
  | none => exact hy
  | some x =>
    obtain ⟨_, hxid, _⟩ := findLive_some idOf delOf xs i h
    apply mem_saveBy_of_ne idOf xs (mark x) y hy
    rw [hid, hxid]
    exact hne

theorem softDelete_marks (hid : ∀ x, idOf (mark x) = idOf x)
    (xs : List α) (x : α) (hnd : (xs.map idOf).Nodup)
    (hx : x ∈ xs) (hlive : delOf x = false) :
    softDelete idOf delOf mark xs (idOf x) = (saveBy idOf xs (mark x), true) ∧
    mark x ∈ (softDelete idOf delOf mark xs (idOf x)).1 := by
  have hfind := findLive_eq_self idOf delOf xs x hnd hx hlive
  constructor
  · unfold softDelete
    rw [hfind]
  · unfold softDelete
    rw [hfind]
    exact mem_saveBy_self idOf xs (mark x) x hx (hid x).symm

/-- After a successful or unsuccessful soft delete of id `i`, no live document
with id `i` remains (deletion is idempotent in the returned boolean). -/
theorem softDelete_twice_false (mark2 : α → α)
    (hid : ∀ x, idOf (mark x) = idOf x) (hdel : ∀ x, delOf (mark x) = true)
    (xs : List α) (i : Nat) :
    (softDelete idOf delOf mark2 (softDelete idOf delOf mark xs i).1 i).2 = false := by
  cases h : findLive idOf delOf xs i with
  | none =>
    unfold softDelete
    rw [h, h]
  | some x =>
    obtain ⟨hxmem, hxid, _⟩ := findLive_some idOf delOf xs i h
    have hnone : findLive idOf delOf (saveBy idOf xs (mark x)) i = none := by
      rw [findLive_eq_none_iff]
      intro y hy hyid
      rcases mem_saveBy_elim idOf xs (mark x) hy with hym | ⟨_, hyne⟩
      · rw [hym]
        exact hdel x
      · rw [hid, hxid] at hyne
        exact absurd hyid hyne
    show (softDelete idOf delOf mark2 (softDelete idOf delOf mark xs i).1 i).2 = false
    unfold softDelete
    rw [h]
    simp only [hnone]

end SoftDeleteLemmas

section SoftDeleteFoldLemmas

variable {α : Type} (idOf : α → Nat) (delOf : α → Bool) (mark : α → α)

theorem softDeleteFold_nil (xs : List α) : softDeleteFold idOf delOf mark [] xs = xs := rfl

theorem softDeleteFold_cons (j : Nat) (ids : List Nat) (xs : List α) :
    softDeleteFold idOf delOf mark (j :: ids) xs
      = softDeleteFold idOf delOf mark ids (softDelete idOf delOf mark xs j).1 := rfl

theorem softDeleteFold_map_idOf (hid : ∀ x, idOf (mark x) = idOf x) (ids : List Nat)
    (xs : List α) :
    (softDeleteFold idOf delOf mark ids xs).map idOf = xs.map idOf := by
  induction ids generalizing xs with
  | nil => rfl
  | cons j rest ih =>
    rw [softDeleteFold_cons, ih, softDelete_map_idOf idOf delOf mark hid]

theorem softDeleteFold_preserves_deleted (hid : ∀ x, idOf (mark x) = idOf x)
    (ids : List Nat) (xs : List α) (y : α) (hnd : (xs.map idOf).Nodup)
    (hy : y ∈ xs) (hdel : delOf y = true) :
    y ∈ softDeleteFold idOf delOf mark ids xs := by
  induction ids generalizing xs with
  | nil => exact hy
  | cons j rest ih =>
    rw [softDeleteFold_cons]
    have hnd1 : (((softDelete idOf delOf mark xs j).1).map idOf).Nodup := by
      rw [softDelete_map_idOf idOf delOf mark hid]
      exact hnd
    exact ih _ hnd1 (softDelete_preserves_deleted idOf delOf mark hid xs j y hnd hy hdel)

theorem softDeleteFold_preserves_other (hid : ∀ x, idOf (mark x) = idOf x)
    (ids : List Nat) (xs : List α) (y : α) (hy : y ∈ xs) (hne : idOf y ∉ ids) :
    y ∈ softDeleteFold idOf delOf mark ids xs := by
  induction ids generalizing xs with
  | nil => exact hy
  | cons j rest ih =>
    rw [softDeleteFold_cons]
    have h1 : idOf y ≠ j := fun hc => hne (hc ▸ List.mem_cons_self j rest)
    have h2 : idOf y ∉ rest := fun hc => hne (List.mem_cons_of_mem j hc)
    exact ih _ (softDelete_preserves_other idOf delOf mark xs j y hid hy h1) h2

theorem softDeleteFold_marks (hid : ∀ x, idOf (mark x) = idOf x)
    (hdel : ∀ x, delOf (mark x) = true)
    (ids : List Nat) (xs : List α) (x : α) (hnd : (xs.map idOf).Nodup)
    (hx : x ∈ xs) (hlive : delOf x = false) (hin : idOf x ∈ ids) :
    mark x ∈ softDeleteFold idOf delOf mark ids xs := by
  induction ids generalizing xs with
  | nil => cases hin
  | cons j rest ih =>
    rw [softDeleteFold_cons]
    have hnd1 : (((softDelete idOf delOf mark xs j).1).map idOf).Nodup := by
      rw [softDelete_map_idOf idOf delOf mark hid]
      exact hnd
    by_cases hji : j = idOf x
    · subst hji
      have hmarks := (softDelete_marks idOf delOf mark hid xs x hnd hx hlive).2
      exact softDeleteFold_preserves_deleted idOf delOf mark hid rest _ (mark x) hnd1
        hmarks (hdel x)
    · have hx1 : x ∈ (softDelete idOf delOf mark xs j).1 :=
        softDelete_preserves_other idOf delOf mark xs j x hid hx (fun hc => hji hc.symm)
      have hin1 : idOf x ∈ rest := by
        rcases List.mem_cons.mp hin with hc | hc
        · exact absurd hc.symm hji
        · exact hc
      exact ih _ hnd1 hx1 hin1

/-- A per-document property satisfied by every original document and by every
marked document holds for every member after a soft delete. -/
theorem softDelete_pres_prop (P : α → Prop) (xs : List α) (i : Nat)
    (hP : ∀ x ∈ xs, P x) (hPm : ∀ x ∈ xs, P (mark x)) :
    ∀ y ∈ (softDelete idOf delOf mark xs i).1, P y := by
  intro y hy
  unfold softDelete at hy
  cases hf : findLive idOf delOf xs i with
  | none =>
    rw [hf] at hy
    exact hP y hy
  | some z =>
    rw [hf] at hy
    obtain ⟨hzmem, _, _⟩ := findLive_some idOf delOf xs i hf
    rcases mem_saveBy_elim idOf xs (mark z) hy with hym | ⟨hymem, _⟩
    · rw [hym]
      exact hPm z hzmem
    · exact hP y hymem

/-- A per-document property satisfied by every original document and stable
under marking holds after any sequence of soft deletes. -/
theorem softDeleteFold_pres_prop (P : α → Prop) (ids : List Nat) (xs : List α)
    (hP : ∀ x ∈ xs, P x) (hPm : ∀ x, P (mark x)) :
    ∀ y ∈ softDeleteFold idOf delOf mark ids xs, P y := by
  induction ids generalizing xs with
  | nil => exact hP
  | cons j rest ih =>
    rw [softDeleteFold_cons]
    exact ih _ (softDelete_pres_prop idOf delOf mark P xs j hP (fun x _ => hPm x))

end SoftDeleteFoldLemmas

/-! Bridges from the store-level deletion loops to the list-level fold. -/

theorem foldl_delete_task_bridge (ids : List Nat) (st : Store) :
    ids.foldl (fun acc tid => (delete_task acc tid true).1) st
      = { st with tasks := (softDeleteFold CDTask.id CDTask.is_deleted (markTask true)
            ids st.tasks) } := by
  induction ids generalizing st with
  | nil => rfl
  | cons j rest ih =>
    rw [List.foldl_cons, ih, softDeleteFold_cons]
    rfl

theorem foldl_delete_sprint_activity_bridge (ids : List Nat) (st : Store) :
    ids.foldl (fun acc aid => (delete_sprint_activity acc aid true).1) st
      = { st with sprintActivities := (softDeleteFold CDSprintActivity.id
            CDSprintActivity.is_deleted (markSprintActivity true) ids st.sprintActivities) } := by
  induction ids generalizing st with
  | nil => rfl
  | cons j rest ih =>
    rw [List.foldl_cons, ih, softDeleteFold_cons]
    rfl

theorem foldl_delete_project_activity_bridge (ids : List Nat) (st : Store) :
    ids.foldl (fun acc aid => (delete_project_activity acc aid true).1) st
      = { st with projectActivities := (softDeleteFold CDProjectActivity.id
            CDProjectActivity.is_deleted (markProjectActivity true) ids st.projectActivities) } := by
  induction ids generalizing st with
  | nil => rfl
  | cons j rest ih =>
    rw [List.foldl_cons, ih, softDeleteFold_cons]
    rfl

/-- `deleteSprintWithCascade` when the sprint is absent (or already deleted). -/
theorem delete_sprint_with_cascade_none (st : Store) (i : Nat) (c : Bool)
    (hf : findLive CDSprint.id CDSprint.is_deleted st.sprints i = none) :
    delete_sprint_with_cascade st i c = (st, false) := by
  unfold delete_sprint_with_cascade
  rw [hf]

/-- Normal form of `deleteSprintWithCascade` when the sprint is found. -/
theorem delete_sprint_with_cascade_some (st : Store) (i : Nat) (c : Bool) (s : CDSprint)
    (hf : findLive CDSprint.id CDSprint.is_deleted st.sprints i = some s) :
    delete_sprint_with_cascade st i c =
      ({ st with
          tasks := (softDeleteFold CDTask.id CDTask.is_deleted (markTask true)
            ((st.tasks.filter
              (fun t => decide (t.sprintId = s.id ∧ t.is_deleted = false))).map CDTask.id)
            st.tasks)
          sprintActivities := (softDeleteFold CDSprintActivity.id CDSprintActivity.is_deleted
            (markSprintActivity true)
            ((st.sprintActivities.filter
              (fun a => decide (a.sprintId = s.id ∧ a.is_deleted = false))).map
                CDSprintActivity.id)
            st.sprintActivities)
          sprints := saveBy CDSprint.id st.sprints (markSprint c s) }, true) := by
  unfold delete_sprint_with_cascade
  rw [hf]
  dsimp only
  rw [foldl_delete_task_bridge, foldl_delete_sprint_activity_bridge]

/-! Per-step facts about `delete_sprint_with_cascade`. -/

theorem dswc_projects (st : Store) (i : Nat) (c : Bool) :
    ((delete_sprint_with_cascade st i c).1).projects = st.projects := by
  cases hf : findLive CDSprint.id CDSprint.is_deleted st.sprints i with
  | none => rw [delete_sprint_with_cascade_none st i c hf]
  | some s => rw [delete_sprint_with_cascade_some st i c s hf]

theorem dswc_projectActivities (st : Store) (i : Nat) (c : Bool) :
    ((delete_sprint_with_cascade st i c).1).projectActivities = st.projectActivities := by
  cases hf : findLive CDSprint.id CDSprint.is_deleted st.sprints i with
  | none => rw [delete_sprint_with_cascade_none st i c hf]
  | some s => rw [delete_sprint_with_cascade_some st i c s hf]

theorem dswc_tasks_map (st : Store) (i : Nat) (c : Bool) :
    ((delete_sprint_with_cascade st i c).1).tasks.map CDTask.id
      = st.tasks.map CDTask.id := by
  cases hf : findLive CDSprint.id CDSprint.is_deleted st.sprints i with
  | none => rw [delete_sprint_with_cascade_none st i c hf]
  | some s =>
    rw [delete_sprint_with_cascade_some st i c s hf]
    exact softDeleteFold_map_idOf CDTask.id CDTask.is_deleted (markTask true)
      (fun _ => rfl) _ st.tasks

theorem dswc_sprints_map (st : Store) (i : Nat) (c : Bool) :
    ((delete_sprint_with_cascade st i c).1).sprints.map CDSprint.id
      = st.sprints.map CDSprint.id := by
  cases hf : findLive CDSprint.id CDSprint.is_deleted st.sprints i with
  | none => rw [delete_sprint_with_cascade_none st i c hf]
  | some s =>
    rw [delete_sprint_with_cascade_some st i c s hf]
    exact map_idOf_saveBy CDSprint.id st.sprints (markSprint c s)

theorem dswc_acts_map (st : Store) (i : Nat) (c : Bool) :
    ((delete_sprint_with_cascade st i c).1).sprintActivities.map CDSprintActivity.id
      = st.sprintActivities.map CDSprintActivity.id := by
  cases hf : findLive CDSprint.id CDSprint.is_deleted st.sprints i with
  | none => rw [delete_sprint_with_cascade_none st i c hf]
  | some s =>
    rw [delete_sprint_with_cascade_some st i c s hf]
    exact softDeleteFold_map_idOf CDSprintActivity.id CDSprintActivity.is_deleted
      (markSprintActivity true) (fun _ => rfl) _ st.sprintActivities

theorem dswc_preserves_deleted_task (st : Store) (i : Nat) (c : Bool) (y : CDTask)
    (hnd : (st.tasks.map CDTask.id).Nodup) (hy : y ∈ st.tasks)
    (hdel : y.is_deleted = true) :
    y ∈ ((delete_sprint_with_cascade st i c).1).tasks := by
  cases hf : findLive CDSprint.id CDSprint.is_deleted st.sprints i with
  | none =>
    rw [delete_sprint_with_cascade_none st i c hf]
    exact hy
  | some s =>
    rw [delete_sprint_with_cascade_some st i c s hf]
    exact softDeleteFold_preserves_deleted CDTask.id CDTask.is_deleted (markTask true)
      (fun _ => rfl) _ st.tasks y hnd hy hdel

theorem dswc_preserves_deleted_act (st : Store) (i : Nat) (c : Bool) (y : CDSprintActivity)
    (hnd : (st.sprintActivities.map CDSprintActivity.id).Nodup)
    (hy : y ∈ st.sprintActivities) (hdel : y.is_deleted = true) :
    y ∈ ((delete_sprint_with_cascade st i c).1).sprintActivities := by
  cases hf : findLive CDSprint.id CDSprint.is_deleted st.sprints i with
  | none =>
    rw [delete_sprint_with_cascade_none st i c hf]
    exact hy
  | some s =>
    rw [delete_sprint_with_cascade_some st i c s hf]
    exact softDeleteFold_preserves_deleted CDSprintActivity.id CDSprintActivity.is_deleted
      (markSprintActivity true) (fun _ => rfl) _ st.sprintActivities y hnd hy hdel

theorem dswc_task_frame (st : Store) (i : Nat) (c : Bool) (y : CDTask)
    (hnd : (st.tasks.map CDTask.id).Nodup) (hy : y ∈ st.tasks)
    (hside : y.sprintId ≠ i) :
    y ∈ ((delete_sprint_with_cascade st i c).1).tasks := by
  cases hf : findLive CDSprint.id CDSprint.is_deleted st.sprints i with
  | none =>
    rw [delete_sprint_with_cascade_none st i c hf]
    exact hy
  | some s =>
    obtain ⟨_, hsid, _⟩ := findLive_some CDSprint.id CDSprint.is_deleted st.sprints i hf
    rw [delete_sprint_with_cascade_some st i c s hf]
    apply softDeleteFold_preserves_other CDTask.id CDTask.is_deleted (markTask true)
      (fun _ => rfl) _ st.tasks y hy
    intro hyin
    obtain ⟨t2, ht2f, ht2id⟩ := List.mem_map.mp hyin
    obtain ⟨ht2mem, ht2p⟩ := List.mem_filter.mp ht2f
    simp only [decide_eq_true_eq] at ht2p
    have ht2y := List.inj_on_of_nodup_map hnd ht2mem hy ht2id
    rw [ht2y] at ht2p
    rw [ht2p.1, hsid] at hside
    exact hside rfl

theorem dswc_act_frame (st : Store) (i : Nat) (c : Bool) (y : CDSprintActivity)
    (hnd : (st.sprintActivities.map CDSprintActivity.id).Nodup)
    (hy : y ∈ st.sprintActivities) (hside : y.sprintId ≠ i) :
    y ∈ ((delete_sprint_with_cascade st i c).1).sprintActivities := by
  cases hf : findLive CDSprint.id CDSprint.is_deleted st.sprints i with
  | none =>
    rw [delete_sprint_with_cascade_none st i c hf]
    exact hy
  | some s =>
    obtain ⟨_, hsid, _⟩ := findLive_some CDSprint.id CDSprint.is_deleted st.sprints i hf
    rw [delete_sprint_with_cascade_some st i c s hf]
    apply softDeleteFold_preserves_other CDSprintActivity.id CDSprintActivity.is_deleted
      (markSprintActivity true) (fun _ => rfl) _ st.sprintActivities y hy
    intro hyin
    obtain ⟨a2, ha2f, ha2id⟩ := List.mem_map.mp hyin
    obtain ⟨ha2mem, ha2p⟩ := List.mem_filter.mp ha2f
    simp only [decide_eq_true_eq] at ha2p
    have ha2y := List.inj_on_of_nodup_map hnd ha2mem hy ha2id
    rw [ha2y] at ha2p
    rw [ha2p.1, hsid] at hside
    exact hside rfl

theorem dswc_sprint_frame (st : Store) (i : Nat) (c : Bool) (y : CDSprint)
    (hy : y ∈ st.sprints) (hne : y.id ≠ i) :
    y ∈ ((delete_sprint_with_cascade st i c).1).sprints := by
  cases hf : findLive CDSprint.id CDSprint.is_deleted st.sprints i with
  | none =>
    rw [delete_sprint_with_cascade_none st i c hf]
    exact hy
  | some s =>
    obtain ⟨_, hsid, _⟩ := findLive_some CDSprint.id CDSprint.is_deleted st.sprints i hf
    rw [delete_sprint_with_cascade_some st i c s hf]
    apply mem_saveBy_of_ne CDSprint.id st.sprints (markSprint c s) y hy
    show y.id ≠ s.id
    rw [hsid]
    exact hne

theorem dswc_marks_task (st : Store) (c : Bool) (s : CDSprint) (t : CDTask)
    (hndS : (st.sprints.map CDSprint.id).Nodup) (hndT : (st.tasks.map CDTask.id).Nodup)
    (hs : s ∈ st.sprints) (hslive : s.is_deleted = false)
    (ht : t ∈ st.tasks) (htid : t.sprintId = s.id) (htlive : t.is_deleted = false) :
    markTask true t ∈ ((delete_sprint_with_cascade st s.id c).1).tasks := by
  have hf := findLive_eq_self CDSprint.id CDSprint.is_deleted st.sprints s hndS hs hslive
  rw [delete_sprint_with_cascade_some st s.id c s hf]
  apply softDeleteFold_marks CDTask.id CDTask.is_deleted (markTask true)
    (fun _ => rfl) (fun _ => rfl) _ st.tasks t hndT ht htlive
  exact List.mem_map.mpr ⟨t, List.mem_filter.mpr ⟨ht, by simp [htid, htlive]⟩, rfl⟩

theorem dswc_marks_act (st : Store) (c : Bool) (s : CDSprint) (a : CDSprintActivity)
    (hndS : (st.sprints.map CDSprint.id).Nodup)
    (hndA : (st.sprintActivities.map CDSprintActivity.id).Nodup)
    (hs : s ∈ st.sprints) (hslive : s.is_deleted = false)
    (ha : a ∈ st.sprintActivities) (haid : a.sprintId = s.id)
    (halive : a.is_deleted = false) :
    markSprintActivity true a
      ∈ ((delete_sprint_with_cascade st s.id c).1).sprintActivities := by
  have hf := findLive_eq_self CDSprint.id CDSprint.is_deleted st.sprints s hndS hs hslive
  rw [delete_sprint_with_cascade_some st s.id c s hf]
  apply softDeleteFold_marks CDSprintActivity.id CDSprintActivity.is_deleted
    (markSprintActivity true) (fun _ => rfl) (fun _ => rfl) _ st.sprintActivities a hndA
    ha halive
  exact List.mem_map.mpr ⟨a, List.mem_filter.mpr ⟨ha, by simp [haid, halive]⟩, rfl⟩

/-! Facts about the sprint loop of `deleteProjectWithCascade`. -/

theorem sprintCascadeFold_nil (st : Store) : sprintCascadeFold [] st = st := rfl

theorem sprintCascadeFold_cons (j : Nat) (ids : List Nat) (st : Store) :
    sprintCascadeFold (j :: ids) st
      = sprintCascadeFold ids (delete_sprint_with_cascade st j true).1 := rfl

theorem sprintCascadeFold_projects (ids : List Nat) (st : Store) :
    (sprintCascadeFold ids st).projects = st.projects := by
  induction ids generalizing st with
  | nil => rfl
  | cons j rest ih => rw [sprintCascadeFold_cons, ih, dswc_projects]

theorem sprintCascadeFold_projectActivities (ids : List Nat) (st : Store) :
    (sprintCascadeFold ids st).projectActivities = st.projectActivities := by
  induction ids generalizing st with
  | nil => rfl
  | cons j rest ih => rw [sprintCascadeFold_cons, ih, dswc_projectActivities]

theorem sprintCascadeFold_tasks_map (ids : List Nat) (st : Store) :
    (sprintCascadeFold ids st).tasks.map CDTask.id = st.tasks.map CDTask.id := by
  induction ids generalizing st with
  | nil => rfl
  | cons j rest ih => rw [sprintCascadeFold_cons, ih, dswc_tasks_map]

theorem sprintCascadeFold_sprints_map (ids : List Nat) (st : Store) :
    (sprintCascadeFold ids st).sprints.map CDSprint.id
      = st.sprints.map CDSprint.id := by
  induction ids generalizing st with
  | nil => rfl
  | cons j rest ih => rw [sprintCascadeFold_cons, ih, dswc_sprints_map]

theorem sprintCascadeFold_acts_map (ids : List Nat) (st : Store) :
    (sprintCascadeFold ids st).sprintActivities.map CDSprintActivity.id
      = st.sprintActivities.map CDSprintActivity.id := by
  induction ids generalizing st with
  | nil => rfl
  | cons j rest ih => rw [sprintCascadeFold_cons, ih, dswc_acts_map]

theorem sprintCascadeFold_preserves_deleted_task (ids : List Nat) (st : Store) (y : CDTask)
    (hnd : (st.tasks.map CDTask.id).Nodup) (hy : y ∈ st.tasks)
    (hdel : y.is_deleted = true) :
    y ∈ (sprintCascadeFold ids st).tasks := by
  induction ids generalizing st with
  | nil => exact hy
  | cons j rest ih =>
    rw [sprintCascadeFold_cons]
    have hnd1 : (((delete_sprint_with_cascade st j true).1).tasks.map CDTask.id).Nodup := by
      rw [dswc_tasks_map]
      exact hnd
    exact ih _ hnd1 (dswc_preserves_deleted_task st j true y hnd hy hdel)

theorem sprintCascadeFold_preserves_deleted_act (ids : List Nat) (st : Store)
    (y : CDSprintActivity)
    (hnd : (st.sprintActivities.map CDSprintActivity.id).Nodup)
    (hy : y ∈ st.sprintActivities) (hdel : y.is_deleted = true) :
    y ∈ (sprintCascadeFold ids st).sprintActivities := by
  induction ids generalizing st with
  | nil => exact hy
  | cons j rest ih =>
    rw [sprintCascadeFold_cons]
    have hnd1 : (((delete_sprint_with_cascade st j true).1).sprintActivities.map
        CDSprintActivity.id).Nodup := by
      rw [dswc_acts_map]
      exact hnd
    exact ih _ hnd1 (dswc_preserves_deleted_act st j true y hnd hy hdel)

theorem sprintCascadeFold_marks_task (ids : List Nat) (st : Store) (s : CDSprint)
    (t : CDTask)
    (hndS : (st.sprints.map CDSprint.id).Nodup) (hndT : (st.tasks.map CDTask.id).Nodup)
    (hs : s ∈ st.sprints) (hslive : s.is_deleted = false) (hsin : s.id ∈ ids)
    (ht : t ∈ st.tasks) (htid : t.sprintId = s.id) (htlive : t.is_deleted = false) :
    markTask true t ∈ (sprintCascadeFold ids st).tasks := by
  induction ids generalizing st with
  | nil => cases hsin
  | cons j rest ih =>
    rw [sprintCascadeFold_cons]
    have hndT1 : (((delete_sprint_with_cascade st j true).1).tasks.map CDTask.id).Nodup := by
      rw [dswc_tasks_map]
      exact hndT
    by_cases hji : j = s.id
    · subst hji
      have hmk := dswc_marks_task st true s t hndS hndT hs hslive ht htid htlive
      exact sprintCascadeFold_preserves_deleted_task rest _ (markTask true t) hndT1 hmk rfl
    · have hndS1 : (((delete_sprint_with_cascade st j true).1).sprints.map
          CDSprint.id).Nodup := by
        rw [dswc_sprints_map]
        exact hndS
      have hs1 : s ∈ ((delete_sprint_with_cascade st j true).1).sprints :=
        dswc_sprint_frame st j true s hs (fun hc => hji hc.symm)
      have ht1 : t ∈ ((delete_sprint_with_cascade st j true).1).tasks := by
        apply dswc_task_frame st j true t hndT ht
        rw [htid]
        intro hc
        exact hji hc.symm
      have hsin1 : s.id ∈ rest := by
        rcases List.mem_cons.mp hsin with hc | hc
        · exact absurd hc.symm hji
        · exact hc
      exact ih _ hndS1 hndT1 hs1 hsin1 ht1

theorem sprintCascadeFold_marks_act (ids : List Nat) (st : Store) (s : CDSprint)
    (a : CDSprintActivity)
    (hndS : (st.sprints.map CDSprint.id).Nodup)
    (hndA : (st.sprintActivities.map CDSprintActivity.id).Nodup)
    (hs : s ∈ st.sprints) (hslive : s.is_deleted = false) (hsin : s.id ∈ ids)
    (ha : a ∈ st.sprintActivities) (haid : a.sprintId = s.id)
    (halive : a.is_deleted = false) :
    markSprintActivity true a ∈ (sprintCascadeFold ids st).sprintActivities := by
  induction ids generalizing st with
  | nil => cases hsin
  | cons j rest ih =>
    rw [sprintCascadeFold_cons]
    have hndA1 : (((delete_sprint_with_cascade st j true).1).sprintActivities.map
        CDSprintActivity.id).Nodup := by
      rw [dswc_acts_map]
      exact hndA
    by_cases hji : j = s.id
    · subst hji
      have hmk := dswc_marks_act st true s a hndS hndA hs hslive ha haid halive
      exact sprintCascadeFold_preserves_deleted_act rest _ (markSprintActivity true a)
        hndA1 hmk rfl
    · have hndS1 : (((delete_sprint_with_cascade st j true).1).sprints.map
          CDSprint.id).Nodup := by
        rw [dswc_sprints_map]
        exact hndS
      have hs1 : s ∈ ((delete_sprint_with_cascade st j true).1).sprints :=
        dswc_sprint_frame st j true s hs (fun hc => hji hc.symm)
      have ha1 : a ∈ ((delete_sprint_with_cascade st j true).1).sprintActivities := by
        apply dswc_act_frame st j true a hndA ha
        rw [haid]
        intro hc
        exact hji hc.symm
      have hsin1 : s.id ∈ rest := by
        rcases List.mem_cons.mp hsin with hc | hc
        · exact absurd hc.symm hji
        · exact hc
      exact ih _ hndS1 hndA1 hs1 hsin1 ha1

/-- `deleteProjectWithCascade` when the project is absent (or already
deleted). -/
theorem delete_project_with_cascade_none (st : Store) (i : Nat) (c : Bool)
    (hf : findLive CDProject.id CDProject.is_deleted st.projects i = none) :
    delete_project_with_cascade st i c = (st, false) := by
  unfold delete_project_with_cascade
  rw [hf]

/--
C1 counterexample: in `storeDeadSprint` the project (id 1) is live, its sprint
(id 2) is already soft-deleted, and a live task (id 3) still sits under that
sprint.  `delete_project_with_cascade storeDeadSprint 1 false` succeeds but
leaves that task completely untouched (`is_deleted = false`,
`is_cascade_deleted = false`), because the cascade only descends into
non-deleted sprints — contradicting the claim that every non-deleted task
under each of the project's sprints is marked.
-/
theorem claim_C1_cascade_cex :
    (delete_project_with_cascade storeDeadSprint 1 false).2 = true ∧
    ({ id := 2, projectId := 1, is_deleted := true, is_cascade_deleted := false } : CDSprint)
      ∈ storeDeadSprint.sprints ∧
    ({ id := 3, sprintId := 2, is_deleted := false, is_cascade_deleted := false } : CDTask)
      ∈ storeDeadSprint.tasks ∧
    ((delete_project_with_cascade storeDeadSprint 1 false).1).tasks
      = [{ id := 3, sprintId := 2, is_deleted := false, is_cascade_deleted := false }] := by
  decide

/--
C1 amended: for a store with pairwise-distinct ids per collection, deleting a
live project through `delete_project_with_cascade(pid, is_cascade := false)`
returns `true`, marks every non-deleted task and sprint-level transversal
activity under each of the project's NON-DELETED sprints with
`is_deleted = true, is_cascade_deleted = true`, and marks the project itself
`is_deleted = true, is_cascade_deleted = false`.
-/
theorem claim_C1_cascade_amended :
    ∀ (st : Store) (pid : Nat) (p : CDProject),
      (st.projects.map CDProject.id).Nodup →
      (st.sprints.map CDSprint.id).Nodup →
      (st.tasks.map CDTask.id).Nodup →
      (st.sprintActivities.map CDSprintActivity.id).Nodup →
      p ∈ st.projects → p.id = pid → p.is_deleted = false →
      (delete_project_with_cascade st pid false).2 = true ∧
      (∀ s ∈ st.sprints, s.projectId = p.id → s.is_deleted = false →
        (∀ t ∈ st.tasks, t.sprintId = s.id → t.is_deleted = false →
          markTask true t ∈ ((delete_project_with_cascade st pid false).1).tasks) ∧
        (∀ a ∈ st.sprintActivities, a.sprintId = s.id → a.is_deleted = false →
          markSprintActivity true a
            ∈ ((delete_project_with_cascade st pid false).1).sprintActivities)) ∧
      markProject false p ∈ ((delete_project_with_cascade st pid false).1).projects := by
  intro st pid p hndP hndS hndT hndA hp hpid hplive
  subst hpid
  have hf := findLive_eq_self CDProject.id CDProject.is_deleted st.projects p hndP hp hplive
  unfold delete_project_with_cascade
  rw [hf]
  dsimp only
  rw [foldl_delete_project_activity_bridge]
  refine ⟨rfl, ?_, ?_⟩
  · intro s hs hsproj hslive
    have hsin : s.id ∈ (st.sprints.filter
        (fun x => decide (x.projectId = p.id ∧ x.is_deleted = false))).map CDSprint.id :=
      List.mem_map.mpr ⟨s, List.mem_filter.mpr ⟨hs, by simp [hsproj, hslive]⟩, rfl⟩
    constructor
    · intro t ht htid htlive
      exact sprintCascadeFold_marks_task _ st s t hndS hndT hs hslive hsin ht htid htlive
    · intro a ha haid halive
      exact sprintCascadeFold_marks_act _ st s a hndS hndA hs hslive hsin ha haid halive
  · show markProject false p ∈ saveBy CDProject.id (sprintCascadeFold _ st).projects _
    rw [sprintCascadeFold_projects]
    exact mem_saveBy_self CDProject.id st.projects (markProject false p) p hp rfl

/-- Witness for C1 amended at the concrete store `storeLive`: the live task
(id 3) and activity (id 4) under the live sprint (id 2) end up cascade-marked
and the project (id 1) ends up directly deleted. -/
theorem claim_C1_cascade_amended_witness :
    (storeLive.projects.map CDProject.id).Nodup ∧
    (storeLive.sprints.map CDSprint.id).Nodup ∧
    (storeLive.tasks.map CDTask.id).Nodup ∧
    (storeLive.sprintActivities.map CDSprintActivity.id).Nodup ∧
    ({ id := 1, centerId := 9, is_deleted := false, is_cascade_deleted := false } : CDProject)
      ∈ storeLive.projects ∧
    markTask true { id := 3, sprintId := 2, is_deleted := false, is_cascade_deleted := false }
      ∈ ((delete_project_with_cascade storeLive 1 false).1).tasks ∧
    markSprintActivity true
        { id := 4, sprintId := 2, is_deleted := false, is_cascade_deleted := false }
      ∈ ((delete_project_with_cascade storeLive 1 false).1).sprintActivities ∧
    markProject false
        { id := 1, centerId := 9, is_deleted := false, is_cascade_deleted := false }
      ∈ ((delete_project_with_cascade storeLive 1 false).1).projects := by
  have h := claim_C1_cascade_amended storeLive 1
    { id := 1, centerId := 9, is_deleted := false, is_cascade_deleted := false }
    (by decide) (by decide) (by decide) (by decide) (by decide) rfl rfl
  have hs := h.2.1
    { id := 2, projectId := 1, is_deleted := false, is_cascade_deleted := false }
    (by decide) rfl rfl
  exact ⟨by decide, by decide, by decide, by decide, by decide,
    hs.1 _ (by decide) rfl rfl, hs.2 _ (by decide) rfl rfl, h.2.2⟩

/--
C4: the cascade engine's `delete_task` returns `false` — and never raises —
whenever no non-deleted task with the given identifier exists, in particular
when the identifier names a task that was already deleted; consequently a
second `delete_task` call with the same identifier always returns `false`.
-/
theorem claim_C4_delete_task_idempotent :
    (∀ (st : Store) (i : Nat) (c : Bool),
      (∀ t ∈ st.tasks, t.id = i → t.is_deleted = true) →
      delete_task st i c = (st, false)) ∧
    (∀ (st : Store) (i : Nat) (c1 c2 : Bool),
      (delete_task (delete_task st i c1).1 i c2).2 = false) := by
  constructor
  · intro st i c h
    have hf : findLive CDTask.id CDTask.is_deleted st.tasks i = none :=
      (findLive_eq_none_iff _ _ _ _).mpr h
    have hsd : softDelete CDTask.id CDTask.is_deleted (markTask c) st.tasks i
        = (st.tasks, false) := by
      unfold softDelete
      rw [hf]
    unfold delete_task
    rw [hsd]
  · intro st i c1 c2
    show (softDelete CDTask.id CDTask.is_deleted (markTask c2)
      ((delete_task st i c1).1).tasks i).2 = false
    exact softDelete_twice_false CDTask.id CDTask.is_deleted (markTask c1) (markTask c2)
      (fun _ => rfl) (fun _ => rfl) st.tasks i

/-- Witness for C4 at a concrete store whose only task (id 3) is already
soft-deleted: deleting id 3 returns `false` and leaves the store unchanged. -/
theorem claim_C4_delete_task_idempotent_witness :
    (∀ t ∈ storeTaskDeleted.tasks, t.id = 3 → t.is_deleted = true) ∧
    delete_task storeTaskDeleted 3 false = (storeTaskDeleted, false) :=
  ⟨by decide, claim_C4_delete_task_idempotent.1 storeTaskDeleted 3 false (by decide)⟩

theorem saveBy_pres_prop (idOf : α → Nat) (P : α → Prop) (xs : List α) (x : α)
    (hP : ∀ y ∈ xs, P y) (hPx : P x) : ∀ y ∈ saveBy idOf xs x, P y := by
  intro y hy
  rcases mem_saveBy_elim idOf xs x hy with hym | ⟨hymem, _⟩
  · rw [hym]
    exact hPx
  · exact hP y hymem

theorem dswc_pres_consistent (st : Store) (i : Nat) (c : Bool)
    (h : storeConsistent st) :
    storeConsistent ((delete_sprint_with_cascade st i c).1) := by
  obtain ⟨hT, hA, hPA, hS, hP⟩ := h
  cases hf : findLive CDSprint.id CDSprint.is_deleted st.sprints i with
  | none =>
    rw [delete_sprint_with_cascade_none st i c hf]
    exact ⟨hT, hA, hPA, hS, hP⟩
  | some s =>
    rw [delete_sprint_with_cascade_some st i c s hf]
    refine ⟨?_, ?_, hPA, ?_, hP⟩
    · exact softDeleteFold_pres_prop CDTask.id CDTask.is_deleted (markTask true) _ _
        st.tasks hT (fun x _ => rfl)
    · exact softDeleteFold_pres_prop CDSprintActivity.id CDSprintActivity.is_deleted
        (markSprintActivity true) _ _ st.sprintActivities hA (fun x _ => rfl)
    · exact saveBy_pres_prop CDSprint.id _ st.sprints (markSprint c s) hS (fun _ => rfl)

theorem sprintCascadeFold_pres_consistent (ids : List Nat) (st : Store)
    (h : storeConsistent st) : storeConsistent (sprintCascadeFold ids st) := by
  induction ids generalizing st with
  | nil => exact h
  | cons j rest ih =>
    rw [sprintCascadeFold_cons]
    exact ih _ (dswc_pres_consistent st j true h)

theorem delete_task_pres_consistent (st : Store) (i : Nat) (c : Bool)
    (h : storeConsistent st) : storeConsistent ((delete_task st i c).1) := by
  obtain ⟨hT, hA, hPA, hS, hP⟩ := h
  refine ⟨?_, hA, hPA, hS, hP⟩
  exact softDelete_pres_prop CDTask.id CDTask.is_deleted (markTask c) _ st.tasks i hT
    (fun x _ => fun _ => rfl)

theorem delete_project_with_cascade_pres_consistent (st : Store) (i : Nat) (c : Bool)
    (h : storeConsistent st) :
    storeConsistent ((delete_project_with_cascade st i c).1) := by
  cases hf : findLive CDProject.id CDProject.is_deleted st.projects i with
  | none =>
    rw [delete_project_with_cascade_none st i c hf]
    exact h
  | some p =>
    unfold delete_project_with_cascade
    rw [hf]
    dsimp only
    rw [foldl_delete_project_activity_bridge]
    have h1 := sprintCascadeFold_pres_consistent
      ((st.sprints.filter
        (fun s => decide (s.projectId = p.id ∧ s.is_deleted = false))).map CDSprint.id)
      st h
    obtain ⟨hT, hA, hPA, hS, hP⟩ := h1
    refine ⟨hT, hA, ?_, hS, ?_⟩
    · exact softDeleteFold_pres_prop CDProjectActivity.id CDProjectActivity.is_deleted
        (markProjectActivity true) _ _ _ hPA (fun x _ => rfl)
    · exact saveBy_pres_prop CDProject.id _ _ (markProject c p) hP (fun _ => rfl)

end Cascade

/--
C5 counterexample: on the declared odmantic models, `is_cascade_deleted` is
absent from `Sprint` and `Project` (which the claim says should carry it) and
present on `ServiceCenter` (which the claim says should not).
-/
theorem claim_C5_flags_cex :
    "is_cascade_deleted" ∉ sprintModelFields ∧
    "is_cascade_deleted" ∉ projectModelFields ∧
    "is_cascade_deleted" ∈ serviceCenterModelFields := by
  decide

/--
C5 amended: among the declared entity models only `Task` and `ServiceCenter`
carry `is_cascade_deleted`; `Sprint`, `Project`, both transversal-activity
models and `User` do not.  On the cascade engine's own (spec-modelled) data
every operation preserves the invariant `is_cascade_deleted = true →
is_deleted = true` on every record of the store, and the source-side task
recalculation and project update never touch the two flags.
-/
theorem claim_C5_flags_amended :
    ("is_cascade_deleted" ∈ taskModelFields ∧
     "is_cascade_deleted" ∈ serviceCenterModelFields ∧
     "is_cascade_deleted" ∉ sprintModelFields ∧
     "is_cascade_deleted" ∉ sprintTransversalActivityModelFields ∧
     "is_cascade_deleted" ∉ projectModelFields ∧
     "is_cascade_deleted" ∉ projectTransversalActivityModelFields ∧
     "is_cascade_deleted" ∉ userModelFields) ∧
    (∀ (st : Cascade.Store) (i : Nat) (c : Bool),
      Cascade.storeConsistent st → Cascade.storeConsistent ((Cascade.delete_task st i c).1)) ∧
    (∀ (st : Cascade.Store) (i : Nat) (c : Bool),
      Cascade.storeConsistent st →
      Cascade.storeConsistent ((Cascade.delete_sprint_with_cascade st i c).1)) ∧
    (∀ (st : Cascade.Store) (i : Nat) (c : Bool),
      Cascade.storeConsistent st →
      Cascade.storeConsistent ((Cascade.delete_project_with_cascade st i c).1)) ∧
    (∀ (t : Task) (m : TaskMetrics),
      (recalc_task t m).is_cascade_deleted = t.is_cascade_deleted ∧
      (recalc_task t m).is_deleted = t.is_deleted) ∧
    (∀ (p : Project) (u : ProjectUpdate), (apply_update p u).is_deleted = p.is_deleted) := by
  refine ⟨by decide, Cascade.delete_task_pres_consistent,
    Cascade.dswc_pres_consistent, Cascade.delete_project_with_cascade_pres_consistent,
    ?_, fun p u => rfl⟩
  intro t m
  unfold recalc_task
  by_cases h : t.timeRemaining = t.technicalLoad <;> simp [h]

/-- Witness for C5 amended: the invariant is preserved by a full project
cascade on the concrete store `storeLive`. -/
theorem claim_C5_flags_amended_witness :
    Cascade.storeConsistent Cascade.storeLive ∧
    Cascade.storeConsistent ((Cascade.delete_project_with_cascade Cascade.storeLive 1 false).1) := by
  have hc : Cascade.storeConsistent Cascade.storeLive := by
    refine ⟨?_, ?_, ?_, ?_, ?_⟩ <;> · intro x hx; fin_cases hx <;> simp [Cascade.storeLive]
  exact ⟨hc, claim_C5_flags_amended.2.2.2.1 Cascade.storeLive 1 false hc⟩

end PTS
